import Mathlib

/-
Verification of the NEO close-approach enrichment pipeline (main.py and its
revised sibling): the string normalizer `_clean_sstr`, the MOID extractor
`_extract_moid_from_orbit`, the SBDB lookup client `sbdb_lookup_moid`, the
pandas-style derived flags, PHA classification, designation join and sort of
`main`, and the photometric diameter relation `h_to_diameter_km`.

Python values are embedded as `PyVal` (parsed JSON), machine floats as `ℚ`
(the claims under study concern extraction and comparison logic, not binary
rounding), and fallible operations as `Option`/`Except`.
-/

set_option maxHeartbeats 1000000
set_option maxRecDepth 8192

/-! ## Python string primitives used by `_clean_sstr` and the extractor -/

/-- The character class `\s` of Python's `re` module restricted to ASCII
(space, tab, newline, carriage return, vertical tab, form feed); the same set
is stripped by `str.strip()`. -/
def pySpace (c : Char) : Bool :=
  c == ' ' || c == '\t' || c == '\n' || c == '\r' || c == '\x0b' || c == '\x0c'

/-- Model of `re.sub(r'^\s+|\s+$', '', s)`: remove the leading and the trailing run of
whitespace (also models `str.strip()`). -/
def pyTrim (l : List Char) : List Char :=
  ((l.dropWhile pySpace).reverse.dropWhile pySpace).reverse

/-- Worker for `pyCollapse`: the flag records whether the previous character
belonged to a whitespace run that has already emitted its single `' '`. -/
def pyCollapseGo : Bool → List Char → List Char
  | _, [] => []
  | inRun, c :: cs =>
    if pySpace c then
      if inRun then pyCollapseGo true cs else ' ' :: pyCollapseGo true cs
    else c :: pyCollapseGo false cs

/-- Model of `re.sub(r'\s+', ' ', s)`: replace every maximal whitespace run by a single
space. -/
def pyCollapse (l : List Char) : List Char :=
  pyCollapseGo false l

/-- The characters strictly between the first and the last one. -/
def innerChars (l : List Char) : List Char :=
  (l.drop 1).dropLast

/-- Model of `re.sub(r'^\((.*)\)$', r'\1', s)`.  With neither `DOTALL` nor `MULTILINE`
set, `.` does not match a newline and `$` matches at the end of the string or
just before a final newline, so the pattern matches exactly when either the
whole string is `(` middle `)` with no newline in the middle (replaced by the
middle), or the whole string is `(` middle `)` `\n` with no newline in the
middle (replaced by the middle followed by the newline). -/
def pyStripParens (l : List Char) : List Char :=
  if l.head? = some '(' ∧ l.getLast? = some ')' ∧ '\n' ∉ innerChars l then
    innerChars l
  else if l.getLast? = some '\n' ∧ l.dropLast.head? = some '(' ∧
      l.dropLast.getLast? = some ')' ∧ '\n' ∉ innerChars l.dropLast then
    innerChars l.dropLast ++ ['\n']
  else l

/-- The normalizer `_clean_sstr`: trim, drop outer `()` and collapse spaces for SBDB search
strings (the initial `str(s)` of the source is the identity on strings). -/
def _clean_sstr (s : String) : String :=
  (pyCollapse (pyStripParens (pyTrim s.toList))).asString

/-! ## Python float parsing and the numeric-substring regex -/

/-- ASCII decimal digit test (`\d` over the strings at hand). -/
def isDig (c : Char) : Bool := c.isDigit

/-- Value of a string of decimal digits. -/
def digitsToNat (l : List Char) : ℕ :=
  l.foldl (fun n c => 10 * n + (c.toNat - '0'.toNat)) 0

/-- Optional leading sign, as matched by `[-+]?` and by `float()`:
the (possibly empty) sign prefix together with the remainder. -/
def matchSign (l : List Char) : List Char × List Char :=
  match l with
  | c :: cs => if c == '+' || c == '-' then ([c], cs) else ([], l)
  | [] => ([], [])

/-- Apply a parsed sign prefix to an integer. -/
def applySignZ (sgn : List Char) (z : ℤ) : ℤ :=
  if sgn = ['-'] then -z else z

/-- The exact rational value of the decimal literal with sign `sgn`, integer
digits `a`, fraction digits `b`, exponent sign `eSgn` and exponent digits
`ds`: the value `±(a.b) × 10^(±ds)`, assembled as a single integer fraction. -/
def decValue (sgn a b eSgn ds : List Char) : ℚ :=
  mkRat
    (applySignZ sgn (digitsToNat (a ++ b) * 10 ^ (applySignZ eSgn (digitsToNat ds)).toNat))
    (10 ^ b.length * 10 ^ (-applySignZ eSgn (digitsToNat ds)).toNat)

/-- The unsigned core accepted by Python `float()`: `digits [. digits?]` or
`. digits`; returns the integer-part digits, the fraction digits and the
remainder. -/
def floatCore (l : List Char) : Option ((List Char × List Char) × List Char) :=
  if (l.dropWhile isDig).head? = some '.' then
    if (l.takeWhile isDig).isEmpty && ((l.dropWhile isDig).tail.takeWhile isDig).isEmpty then
      none
    else
      some ((l.takeWhile isDig, (l.dropWhile isDig).tail.takeWhile isDig),
        (l.dropWhile isDig).tail.dropWhile isDig)
  else if (l.takeWhile isDig).isEmpty then none
  else some ((l.takeWhile isDig, []), l.dropWhile isDig)

/-- The optional exponent `[eE][-+]?digits` of a `float()` literal, which must
consume the whole remainder `rest`: the final value from the already-parsed
sign and core digits, or `none` when `rest` is not a valid exponent. -/
def pyFloatTail (sgn a b rest : List Char) : Option ℚ :=
  match rest with
  | [] => some (decValue sgn a b [] [])
  | c :: cs =>
    if c == 'e' || c == 'E' then
      if ((matchSign cs).2.takeWhile isDig).isEmpty
          || !((matchSign cs).2.dropWhile isDig).isEmpty then none
      else some (decValue sgn a b (matchSign cs).1 ((matchSign cs).2.takeWhile isDig))
    else none

/-- Python `float(s)` on a character list: surrounding whitespace, an optional
sign, the core, and an optional exponent, with nothing left over; `none` means
`float()` raises `ValueError`.  (The rarely seen `inf`, `nan` and
digit-group-underscore literals are outside this model; no value in any
theorem below involves them.) -/
def pyFloatL (l : List Char) : Option ℚ :=
  match floatCore (matchSign (pyTrim l)).2 with
  | none => none
  | some ((a, b), rest) => pyFloatTail (matchSign (pyTrim l)).1 a b rest

/-- Python `float(s)` on a string. -/
def pyFloat (s : String) : Option ℚ := pyFloatL s.toList

/-- The exponent part `(?:[eE][-+]?\d+)?` of the numeric regex, matched
greedily at the front of `l`: the (possibly empty) matched prefix and the
remainder. -/
def matchExpPart (l : List Char) : List Char × List Char :=
  match l with
  | c :: cs =>
    if c == 'e' || c == 'E' then
      if ((matchSign cs).2.takeWhile isDig).isEmpty then ([], l)
      else (c :: ((matchSign cs).1 ++ (matchSign cs).2.takeWhile isDig),
            (matchSign cs).2.dropWhile isDig)
    else ([], l)
  | [] => ([], [])

/-- The body `\d*\.?\d+` of the numeric regex matched greedily at the front of
`l`: the matched characters and the remainder.  Backtracking collapses to:
prefer `digits . digits`, else bare `digits`. -/
def matchNumBody (l : List Char) : Option (List Char × List Char) :=
  if (l.dropWhile isDig).head? = some '.' then
    if ((l.dropWhile isDig).tail.takeWhile isDig).isEmpty then
      if (l.takeWhile isDig).isEmpty then none
      else some (l.takeWhile isDig, l.dropWhile isDig)
    else
      some (l.takeWhile isDig ++ '.' :: (l.dropWhile isDig).tail.takeWhile isDig,
        (l.dropWhile isDig).tail.dropWhile isDig)
  else if (l.takeWhile isDig).isEmpty then none
  else some (l.takeWhile isDig, l.dropWhile isDig)

/-- One attempt of `re.search(r"[-+]?\d*\.?\d+(?:[eE][-+]?\d+)?", s)` anchored
at the front of `l`: the full matched token, if any. -/
def matchNumAt (l : List Char) : Option (List Char) :=
  match matchNumBody (matchSign l).2 with
  | none => none
  | some (m, rest) => some ((matchSign l).1 ++ m ++ (matchExpPart rest).1)

/-- Model of `re.search` of the numeric pattern: the leftmost match in `l`. -/
def searchNum : List Char → Option (List Char)
  | [] => none
  | c :: cs =>
    match matchNumAt (c :: cs) with
    | some m => some m
    | none => searchNum cs

/-! ## Parsed JSON / Python values -/

/-- A parsed JSON value as held by the Python code: `None`, `bool`, a number
(`int`/`float` merged, exact), `str`, `list`, or `dict` (association list;
JSON object keys are taken distinct, as Python's parser keeps one value per
key). -/
inductive PyVal where
  | none : PyVal
  | bool : Bool → PyVal
  | num : ℚ → PyVal
  | str : String → PyVal
  | list : List PyVal → PyVal
  | dict : List (String × PyVal) → PyVal

/-- Python truthiness of a parsed JSON value (`bool(v)`). -/
def truthy : PyVal → Bool
  | PyVal.none => false
  | PyVal.bool b => b
  | PyVal.num q => !(q == 0)
  | PyVal.str s => !(s == "")
  | PyVal.list xs => !xs.isEmpty
  | PyVal.dict kvs => !kvs.isEmpty

/-- Python `a or b`: `a` if truthy, else `b`. -/
def pyOr (a b : PyVal) : PyVal :=
  if truthy a then a else b

/-- Python `v is None`. -/
def PyVal.isNone : PyVal → Bool
  | PyVal.none => true
  | _ => false

/-- Python `d.get(k)`: the value at `k`, or Python `None` when the key is absent
(a key that is present with JSON `null` also yields `None`). -/
def dget (kvs : List (String × PyVal)) (k : String) : PyVal :=
  (kvs.lookup k).getD PyVal.none

/-- Python `d.get(k, "")`: the value at `k`, defaulting to the empty string. -/
def dgetStr (kvs : List (String × PyVal)) (k : String) : PyVal :=
  (kvs.lookup k).getD (PyVal.str "")

/-- Python `k in d` for a dict. -/
def hasKey (kvs : List (String × PyVal)) (k : String) : Bool :=
  (kvs.lookup k).isSome

/-- Python `str(item.get("name", "")).strip().lower()` compared against
`("moid", "earth moid")`.  When the value is not a string, Python's `str()`
renders `"None"`, `"True"`, `"False"`, a numeral, or a bracketed `repr` of a
list/dict; after `strip().lower()` none of those can equal `"moid"` or
`"earth moid"`, so only string values can match. -/
def nameMatches : PyVal → Bool
  | PyVal.str s =>
    (((pyTrim s.toList).map Char.toLower).asString == "moid")
      || (((pyTrim s.toList).map Char.toLower).asString == "earth moid")
  | _ => false

/-- The `for item in elems` loop of `_extract_moid_from_orbit` (list-style
elements): skip non-dict entries, and at the first entry whose normalized
name is `moid`/`earth moid` take `item.get("value") or item.get("val")` and
break; `None` when the loop finds nothing. -/
def findMoidInList : List PyVal → PyVal
  | [] => PyVal.none
  | PyVal.dict ikvs :: rest =>
    if nameMatches (dgetStr ikvs "name") then pyOr (dget ikvs "value") (dget ikvs "val")
    else findMoidInList rest
  | _ :: rest => findMoidInList rest

/-- The final `Normalize to float` block of `_extract_moid_from_orbit`:
`isinstance(moid, (int, float))` passes numbers through — and also Python
booleans, since `bool` is a subclass of `int`, giving `1.0`/`0.0`; strings are
tried with `float(...)` and, failing that, with the first numeric substring;
anything else yields `None`. -/
def normalizeMoid : PyVal → Option ℚ
  | PyVal.num q => some q
  | PyVal.bool b => some (if b then 1 else 0)
  | PyVal.str s =>
    match pyFloatL s.toList with
    | some q => some q
    | none =>
      match searchNum s.toList with
      | some m => pyFloatL m
      | none => none
  | _ => none

/-- The candidate resolution of `_extract_moid_from_orbit` on a dict orbit.
Mirrors the source: dict-style elements take `elements.get("moid")` and, if
that `is None`, `elements.get("Earth MOID") or elements.get("moid_au")`;
list-style elements run the scan loop; then `if moid is None and "moid" in
orbit`, the orbit-level value is taken. -/
def moidCandidate (kvs : List (String × PyVal)) : PyVal :=
  if (match dget kvs "elements" with
      | PyVal.dict ekvs =>
        if (dget ekvs "moid").isNone then
          pyOr (dget ekvs "Earth MOID") (dget ekvs "moid_au")
        else dget ekvs "moid"
      | PyVal.list items => findMoidInList items
      | _ => PyVal.none).isNone
      && hasKey kvs "moid" then
    dget kvs "moid"
  else
    match dget kvs "elements" with
    | PyVal.dict ekvs =>
      if (dget ekvs "moid").isNone then
        pyOr (dget ekvs "Earth MOID") (dget ekvs "moid_au")
      else dget ekvs "moid"
    | PyVal.list items => findMoidInList items
    | _ => PyVal.none

/-- The extractor `_extract_moid_from_orbit`: SBDB `orbit` can carry elements
as a dict or as a list of name/value dicts; a `moid` may also sit at orbit
level.  The resolved candidate (`moidCandidate`) is normalized to a float.
This is the value of the function on inputs where it returns normally; the
uncaught `OverflowError` that `float(moid)` raises on a huge integer
candidate is tracked by `_extract_moid_from_orbitE`. -/
def _extract_moid_from_orbit (orbit : PyVal) : Option ℚ :=
  match orbit with
  | PyVal.dict kvs => normalizeMoid (moidCandidate kvs)
  | _ => none

/-! ## Exception-tracking variant of the extractor

Two operations in `_extract_moid_from_orbit` can raise.  First, `float(...)`
on a string: the initial call sits inside `try ... except ValueError`, but the
fallback `float(m.group(0))` in the handler is unprotected, so a matched
substring that failed to parse would propagate a `ValueError`.  Second,
`float(moid)` on an `int` candidate of magnitude at least `2^1024 - 2^970`
raises `OverflowError` (the integer rounds beyond the largest double), and no
handler in the program catches it — `json` decodes arbitrarily long integer
literals to unbounded `int`s, so such candidates are reachable.
`normalizeMoidE` makes both potential raises explicit as `Except.error`. -/

/-- CPython `float(n)` on an `int` raises `OverflowError` exactly when
`|n| >= 2^1024 - 2^970` (the integers that round to infinity; the largest
double is `2^1024 - 2^971`).  In this merged number model a value with
denominator 1 and that magnitude can only have come from a JSON integer
literal — decimal-point and exponent literals decode to doubles, which top out
below the threshold — and `float()` of a value that is already a float never
raises. -/
def pyFloatOfNumRaises (q : ℚ) : Bool :=
  q.den == 1 && decide (2 ^ 1024 - 2 ^ 970 ≤ q.num.natAbs)

/-- The normalization block with its possible uncaught `OverflowError` (an
integer candidate past the double range) and `ValueError` (the unprotected
`float(m.group(0))` in the `except` branch). -/
def normalizeMoidE : PyVal → Except Unit (Option ℚ)
  | PyVal.num q =>
    if pyFloatOfNumRaises q then Except.error () else Except.ok (some q)
  | PyVal.str s =>
    match pyFloatL s.toList with
    | some q => Except.ok (some q)
    | none =>
      match searchNum s.toList with
      | some m =>
        match pyFloatL m with
        | some q => Except.ok (some q)
        | none => Except.error ()
      | none => Except.ok none
  | v => Except.ok (normalizeMoid v)

/-- Variant of `_extract_moid_from_orbit` with its possible uncaught
exceptions made explicit: the `OverflowError` of `float(moid)` on a huge
integer candidate and the `ValueError` of the unprotected
`float(m.group(0))`. -/
def _extract_moid_from_orbitE (orbit : PyVal) : Except Unit (Option ℚ) :=
  match orbit with
  | PyVal.dict kvs => normalizeMoidE (moidCandidate kvs)
  | _ => Except.ok none

/-! ## The MOID Extractor as the claim words it

`extract_moid_claim` transcribes the claim's candidate resolution: each
fallback key is consulted only when the previous one is absent, and the first
key that is present wins ("first success winning"); its normalization treats
numbers and strings, everything else being absent.  The code instead chains
the fallbacks with Python `or`, which skips a present-but-falsy value
(`0`, `0.0`, `""`, `False`, `[]`, `{}`), and passes booleans through
`isinstance(moid, (int, float))`.  `extract_moid_amended` states the
resolution the code actually performs. -/

/-- Claim-side normalization: numbers pass through, strings are parsed with
the numeric-substring fallback, anything else is absent. -/
def normalizeClaim : PyVal → Option ℚ
  | PyVal.num q => some q
  | PyVal.str s =>
    match pyFloatL s.toList with
    | some q => some q
    | none =>
      match searchNum s.toList with
      | some m => pyFloatL m
      | none => none
  | _ => none

/-- Claim-side list scan: the entry (a mapping) whose trimmed lower-cased
name is `moid`/`earth moid` contributes its `value`, falling back to its
`val` when `value` is absent. -/
def findMoidClaim : List PyVal → Option PyVal
  | [] => none
  | PyVal.dict ikvs :: rest =>
    if nameMatches (dgetStr ikvs "name") then (ikvs.lookup "value").or (ikvs.lookup "val")
    else findMoidClaim rest
  | _ :: rest => findMoidClaim rest

/-- The MOID Extractor exactly as the claim states it: candidates are resolved
in order with "first success winning", where a key succeeds when it is
present — `elements.moid`, else `elements.`\x7b`Earth MOID`\x7d, else
`elements.moid_au` for mapping-style elements; the matching entry's
`value`/`val` for list-style elements; else a top-level `moid`. -/
def extract_moid_claim (orbit : PyVal) : Option ℚ :=
  match orbit with
  | PyVal.dict kvs =>
    match
      (match dget kvs "elements" with
        | PyVal.dict ekvs =>
          ((ekvs.lookup "moid").or ((ekvs.lookup "Earth MOID").or (ekvs.lookup "moid_au")))
        | PyVal.list items => findMoidClaim items
        | _ => none).or (kvs.lookup "moid")
    with
    | some v => normalizeClaim v
    | none => none
  | _ => none

/-- Amended-claim normalization: booleans count as numeric (Python `bool` is
an `int` subclass), numbers pass through, strings are parsed with the
numeric-substring fallback, anything else is absent. -/
def normalizeAmended : PyVal → Option ℚ
  | PyVal.num q => some q
  | PyVal.bool b => some (if b then 1 else 0)
  | PyVal.str s =>
    match pyFloatL s.toList with
    | some q => some q
    | none =>
      match searchNum s.toList with
      | some m => pyFloatL m
      | none => none
  | _ => none

/-- Amended-claim secondary chain for mapping-style elements: the
`Earth MOID` value when truthy, otherwise the `moid_au` value. -/
def amendedSecondary (ekvs : List (String × PyVal)) : PyVal :=
  if truthy (dget ekvs "Earth MOID") then dget ekvs "Earth MOID" else dget ekvs "moid_au"

/-- Amended-claim list scan: the first mapping entry with a matching name
contributes its `value` when truthy, otherwise its `val`. -/
def amendedFromList : List PyVal → PyVal
  | [] => PyVal.none
  | PyVal.dict ikvs :: rest =>
    if nameMatches (dgetStr ikvs "name") then
      (if truthy (dget ikvs "value") then dget ikvs "value" else dget ikvs "val")
    else amendedFromList rest
  | _ :: rest => amendedFromList rest

/-- Amended-claim resolution over the `elements` field. -/
def amendedElems : PyVal → PyVal
  | PyVal.dict ekvs =>
    (match ekvs.lookup "moid" with
      | some v => if v.isNone then amendedSecondary ekvs else v
      | none => amendedSecondary ekvs)
  | PyVal.list items => amendedFromList items
  | _ => PyVal.none

/-- The MOID Extractor as amended: mapping-style elements resolve to the
`moid` value when present and non-null, else to the truthiness-chained
`Earth MOID`/`moid_au`; list-style elements to the truthiness-chained
`value`/`val` of the first matching entry; a null result falls through to the
top-level `moid` value; the candidate is then normalized with booleans
counting as numeric. -/
def extract_moid_amended (orbit : PyVal) : Option ℚ :=
  match orbit with
  | PyVal.dict kvs =>
    normalizeAmended
      (if (amendedElems (dget kvs "elements")).isNone then dget kvs "moid"
       else amendedElems (dget kvs "elements"))
  | _ => none

/-! ## The Orbital Lookup Client `sbdb_lookup_moid`

The network is abstracted as a function from the submitted query string to an
`HttpOutcome`.  `requests.get` raising (connection error / timeout) and
`r.json()` raising on an undecodable body are `requests.RequestException`s
(`JSONDecodeError` is a subclass in the `requests` in use) and are caught by
the client's `except requests.RequestException`; `r.raise_for_status()`
raises `HTTPError` — also caught — exactly for status codes 400–599.  The
extractor's possible `OverflowError` (see `_extract_moid_from_orbitE`) is NOT
a `RequestException` and escapes the handler to the client's caller; the
variants `sbdb_try_bodyE` and `sbdb_lookup_moidE` track that escape. -/

/-- Outcome of the single GET request: transport failure, timeout, or a
response with a status code and a body (`none` = undecodable JSON). -/
inductive HttpOutcome where
  | netError : HttpOutcome
  | timeout : HttpOutcome
  | response : ℕ → Option PyVal → HttpOutcome

/-- The `requests.RequestException`s that the client's `try` block can
raise. -/
inductive RequestError where
  | netError : RequestError
  | timeout : RequestError
  | httpStatusError : RequestError
  | jsonDecodeError : RequestError

/-- The body of `sbdb_lookup_moid`'s `try` block: clean the designation,
perform the request, `raise_for_status`, decode JSON, return `None` for a
non-dict document, and otherwise extract the MOID from `j.get("orbit", ...)`
with an empty-dict default.  Errors are the catchable `RequestException`s;
this is the body's outcome on runs where the extractor returns normally, and
`sbdb_try_bodyE` adds the extractor's escaping `OverflowError`. -/
def sbdb_try_body (des : String) (net : String → HttpOutcome) :
    Except RequestError (Option ℚ) :=
  match net (_clean_sstr des) with
  | HttpOutcome.netError => Except.error RequestError.netError
  | HttpOutcome.timeout => Except.error RequestError.timeout
  | HttpOutcome.response status body =>
    if 400 ≤ status ∧ status < 600 then Except.error RequestError.httpStatusError
    else
      match body with
      | none => Except.error RequestError.jsonDecodeError
      | some j =>
        match j with
        | PyVal.dict kvs =>
          Except.ok (_extract_moid_from_orbit ((kvs.lookup "orbit").getD (PyVal.dict [])))
        | _ => Except.ok none

/-- The client `sbdb_lookup_moid`: Earth MOID (au) from SBDB; `None` if missing or API
error — the `except requests.RequestException: return None` around the
body.  This is the returned value on runs where no exception escapes;
`sbdb_lookup_moidE` tracks the escaping `OverflowError`. -/
def sbdb_lookup_moid (des : String) (net : String → HttpOutcome) : Option ℚ :=
  match sbdb_try_body des net with
  | Except.ok v => v
  | Except.error _ => none

/-- The `try` body with both error layers: the outer `Except.error` is the
extractor's `OverflowError`, which is not a `RequestException`; the inner
`Except.error` is a catchable `RequestException`. -/
def sbdb_try_bodyE (des : String) (net : String → HttpOutcome) :
    Except Unit (Except RequestError (Option ℚ)) :=
  match net (_clean_sstr des) with
  | HttpOutcome.netError => Except.ok (Except.error RequestError.netError)
  | HttpOutcome.timeout => Except.ok (Except.error RequestError.timeout)
  | HttpOutcome.response status body =>
    if 400 ≤ status ∧ status < 600 then
      Except.ok (Except.error RequestError.httpStatusError)
    else
      match body with
      | none => Except.ok (Except.error RequestError.jsonDecodeError)
      | some j =>
        match j with
        | PyVal.dict kvs =>
          match _extract_moid_from_orbitE ((kvs.lookup "orbit").getD (PyVal.dict [])) with
          | Except.ok v => Except.ok (Except.ok v)
          | Except.error e => Except.error e
        | _ => Except.ok (Except.ok none)

/-- The client as its caller observes it: `except requests.RequestException`
collapses the catchable errors to `None`, while the extractor's
`OverflowError` passes through uncaught. -/
def sbdb_lookup_moidE (des : String) (net : String → HttpOutcome) :
    Except Unit (Option ℚ) :=
  match sbdb_try_bodyE des net with
  | Except.ok (Except.ok v) => Except.ok v
  | Except.ok (Except.error _) => Except.ok none
  | Except.error e => Except.error e

/-! ## Close-approach events and the enrichment pipeline

One CAD row after the `pd.to_numeric(..., errors="coerce")` step: the numeric
columns hold a rational or are missing (pandas `NaN`), exactly the state the
flag, classification, join and sort steps operate on. -/

/-- A close-approach event row. -/
structure Event where
  cd : String
  des : Option String
  fullname : String
  dist : Option ℚ
  v_rel : Option ℚ
  h : Option ℚ
  moid_au : Option ℚ
deriving DecidableEq

/-- pandas `series <= c` for a scalar `c`: a missing value (`NaN`) compares
`False`. -/
def seriesLeScalar (v : Option ℚ) (c : ℚ) : Bool :=
  match v with
  | some x => decide (x ≤ c)
  | none => false

/-- Column `df["close_<=0.05au"] = df["dist"] <= 0.05`. -/
def close_le_005au (e : Event) : Bool :=
  seriesLeScalar e.dist (mkRat 5 100)

/-- Column `df["big_enough_H<=22"] = df["h"] <= 22.0`. -/
def big_enough_H_le_22 (e : Event) : Bool :=
  seriesLeScalar e.h 22

/-- Column `df["PHA_by_def"] = (df["moid_au"] <= 0.05) & (df["h"] <= 22.0)`. -/
def PHA_by_def (e : Event) : Bool :=
  seriesLeScalar e.moid_au (mkRat 5 100) && seriesLeScalar e.h 22

/-- Model of `Series.unique()`: first occurrences of the distinct values, in order;
the accumulator holds the values already seen. -/
def uniqueFirstGo (seen : List String) : List String → List String
  | [] => []
  | x :: xs =>
    if seen.contains x then uniqueFirstGo seen xs
    else x :: uniqueFirstGo (x :: seen) xs

/-- Insert into an ascending list (one step of `sorted(...)`). -/
def insertAsc (x : String) : List String → List String
  | [] => [x]
  | y :: ys => if decide (y < x) then y :: insertAsc x ys else x :: y :: ys

/-- Python `sorted(...)` on strings: ascending insertion sort. -/
def sortedAsc (l : List String) : List String :=
  l.foldr insertAsc []

/-- Model of `sorted(df["des"].dropna().unique().tolist())`: the distinct non-missing
designations in ascending order. -/
def uniqueDes (evs : List Event) : List String :=
  sortedAsc (uniqueFirstGo [] (evs.filterMap Event.des))

/-- The `moids` mapping built by the lookup loop: one `sbdb_lookup_moid` call
per unique designation. -/
def moidTable (net : String → HttpOutcome) (evs : List Event) :
    List (String × Option ℚ) :=
  (uniqueDes evs).map (fun d => (d, sbdb_lookup_moid d net))

/-- Model of `df["des"].map(moids)` on one designation cell: a missing designation, or
one absent from the mapping, becomes missing. -/
def mapMoid (tbl : List (String × Option ℚ)) (d : Option String) : Option ℚ :=
  match d with
  | some k => (tbl.lookup k).getD none
  | none => none

/-- Column `df["moid_au"] = df["des"].map(moids)`: broadcast the per-designation
MOID onto every event. -/
def enrich (net : String → HttpOutcome) (evs : List Event) : List Event :=
  evs.map (fun e => { e with moid_au := mapMoid (moidTable net evs) e.des })

/-- An event with its enrichment column blanked, for stating that enrichment
touches nothing else. -/
def stripMoid (e : Event) : Event :=
  { e with moid_au := none }

/-! ## The sort step

`df.sort_values(by=["dist", "h", "v_rel"], ascending=[True, True, False])`.
With several `by` columns pandas sorts by a stable lexicographic key
(`np.lexsort`; the `kind` parameter applies to single-column sorts only), and
the default `na_position="last"` places missing values after all present ones
in every key, for descending keys too.  Each key is therefore embedded into
the linear order `Bool ×ₗ ℚ`: a missing value maps to `(true, 0)`, above every
present value `(false, x)`; descending keys negate the rational. -/

/-- Ascending sort key of one `Option ℚ` cell, missing values last. -/
def keyAsc (v : Option ℚ) : Bool ×ₗ ℚ :=
  toLex (v.isNone, v.getD 0)

/-- Descending sort key of one `Option ℚ` cell, missing values last. -/
def keyDesc (v : Option ℚ) : Bool ×ₗ ℚ :=
  toLex (v.isNone, -(v.getD 0))

/-- The three sort columns of an event, in priority order. -/
def keyTriple (e : Event) : Option ℚ × Option ℚ × Option ℚ :=
  (e.dist, e.h, e.v_rel)

/-- The full lexicographic sort key of the sort step. -/
def sortKey (e : Event) : (Bool ×ₗ ℚ) ×ₗ ((Bool ×ₗ ℚ) ×ₗ (Bool ×ₗ ℚ)) :=
  toLex (keyAsc e.dist, toLex (keyAsc e.h, keyDesc e.v_rel))

/-- The comparator of the sort step. -/
def sortLe (e f : Event) : Bool :=
  decide (sortKey e ≤ sortKey f)

/-- The sort step itself: a stable sort by the lexicographic key. -/
def sortEvents (evs : List Event) : List Event :=
  evs.mergeSort sortLe

/-- Dist/H comparison as the claim words it: non-decreasing with missing
values trailing. -/
def optAscLe (a b : Option ℚ) : Bool :=
  match a, b with
  | some x, some y => decide (x ≤ y)
  | some _, none => true
  | none, some _ => false
  | none, none => true

/-- Relative-velocity comparison as the claim words it: non-increasing with
missing values trailing. -/
def optDescLe (a b : Option ℚ) : Bool :=
  match a, b with
  | some x, some y => decide (y ≤ x)
  | some _, none => true
  | none, some _ => false
  | none, none => true

/-! ## The Diameter Estimator -/

/-- The estimator `h_to_diameter_km`: the photometric relation
`D(km) = 1329/sqrt(p) * 10^(-H/5)`. -/
noncomputable def h_to_diameter_km (H albedo : ℝ) : ℝ :=
  1329 / Real.sqrt albedo * (10 : ℝ) ^ (-H / 5)

/-! ## Concrete checkpoints for the embedded functions -/

example : _clean_sstr "  (2024 AB)  " = "2024 AB" := by decide
example : _clean_sstr "2024   AB" = "2024 AB" := by decide
example : _clean_sstr "(2024) AB" = "(2024) AB" := by decide
example : _clean_sstr "((2024 AB))" = "(2024 AB)" := by decide
example : _clean_sstr "(2024) (AB)" = "2024) (AB" := by decide
example : pyFloat "0.0123" = some (mkRat 123 10000) := by decide
example : pyFloat " -12.5e-1 " = some (mkRat (-125) 100) := by decide
example : pyFloat "1." = some 1 := by decide
example : pyFloat ".5" = some (mkRat 1 2) := by decide
example : pyFloat "0.05 au" = none := by decide
example : pyFloat "n/a" = none := by decide
example : pyFloat "+3E2" = some 300 := by decide
example : pyFloat "" = none := by decide
example : searchNum "0.05 au".toList = some "0.05".toList := by decide
example : searchNum "n/a".toList = none := by decide
example : searchNum "moid approx -1.3e4 au".toList = some "-1.3e4".toList := by decide
example : searchNum "v 12. end".toList = some "12".toList := by decide
example : searchNum "a+.5".toList = some "+.5".toList := by decide
example : pyFloatL "-1.3e4".toList = some (-13000) := by decide
example :
    _extract_moid_from_orbit
      (PyVal.dict [("elements", PyVal.dict [("moid", PyVal.str "0.0123")])])
      = some (mkRat 123 10000) := by decide
example :
    _extract_moid_from_orbit
      (PyVal.dict [("elements", PyVal.list
        [PyVal.dict [("name", PyVal.str "MOID"), ("value", PyVal.str "0.05 au")]])])
      = some (mkRat 5 100) := by decide
example :
    _extract_moid_from_orbit (PyVal.dict [("elements", PyVal.dict [])]) = none := by
  decide
example :
    _extract_moid_from_orbit
      (PyVal.dict [("elements", PyVal.dict [("moid", PyVal.str "n/a")])]) = none := by
  decide
example :
    _extract_moid_from_orbit (PyVal.dict [("moid", PyVal.num (mkRat 7 2))])
      = some (mkRat 7 2) := by decide
example : _extract_moid_from_orbit (PyVal.str "x") = none := by decide
example :
    _extract_moid_from_orbit
      (PyVal.dict [("elements", PyVal.dict [("Earth MOID", PyVal.num 0)])]) = none := by
  decide
example :
    extract_moid_claim
      (PyVal.dict [("elements", PyVal.dict [("Earth MOID", PyVal.num 0)])])
      = some 0 := by decide
example :
    sbdb_lookup_moid "2024 AB" (fun _ => HttpOutcome.netError) = none := by decide
example :
    sbdb_lookup_moid "2024 AB"
      (fun _ => HttpOutcome.response 200
        (some (PyVal.dict [("orbit", PyVal.dict [("moid", PyVal.str "0.05")])])))
      = some (mkRat 5 100) := by decide
example :
    sbdb_lookup_moid "2024 AB"
      (fun _ => HttpOutcome.response 404
        (some (PyVal.dict [("orbit", PyVal.dict [("moid", PyVal.str "0.05")])])))
      = none := by decide

/-! ## Claim C3: hazard classification -/

/-- Claim C3: after enrichment, `PHA_by_def` is true iff the event's MOID is
present and at most 0.05 au and its H is present and at most 22.0; with MOID
missing it is false. -/
theorem PHA_by_def_spec (e : Event) :
    (PHA_by_def e = true ↔
      ((∃ m, e.moid_au = some m ∧ m ≤ mkRat 5 100) ∧ (∃ hv, e.h = some hv ∧ hv ≤ 22)))
    ∧ (e.moid_au = none → PHA_by_def e = false) := by
  rcases hm : e.moid_au with _ | m <;> rcases hh : e.h with _ | hv <;>
    simp [PHA_by_def, seriesLeScalar, hm, hh]

/-- Witness for `PHA_by_def_spec` at a concrete event with a missing MOID. -/
theorem PHA_by_def_spec_witness :
    PHA_by_def
      { cd := "2026-01-01 00:00", des := some "2024 AB", fullname := "(2024 AB)",
        dist := some (mkRat 3 100), v_rel := some 15, h := some 20, moid_au := none }
      = false :=
  (PHA_by_def_spec _).2 rfl

/-! ## Claim C10: flags under missing inputs -/

/-- Claim C10: an event whose distance is missing after coercion gets a false
(not missing, not true) close flag, and one whose H is missing gets a false
size flag.  The flags are booleans by construction, so "missing" is not even
expressible for them. -/
theorem flags_of_missing_spec (e : Event) :
    (e.dist = none → close_le_005au e = false)
    ∧ (e.h = none → big_enough_H_le_22 e = false) := by
  constructor <;> intro h0 <;>
    simp [close_le_005au, big_enough_H_le_22, seriesLeScalar, h0]

/-- Witness for `flags_of_missing_spec` at a concrete event with both inputs
missing. -/
theorem flags_of_missing_spec_witness :
    close_le_005au
        { cd := "", des := none, fullname := "", dist := none, v_rel := none,
          h := none, moid_au := none } = false
    ∧ big_enough_H_le_22
        { cd := "", des := none, fullname := "", dist := none, v_rel := none,
          h := none, moid_au := none } = false :=
  ⟨(flags_of_missing_spec _).1 rfl, (flags_of_missing_spec _).2 rfl⟩

/-! ## Claim C9: the Diameter Estimator -/

/-- Claim C9: for every H and albedo p > 0 the estimator returns exactly
`1329/sqrt(p) * 10^(-H/5)` kilometers, strictly decreasing in H and strictly
decreasing in p. -/
theorem h_to_diameter_km_spec (H H2 p p2 : ℝ) (hp : 0 < p) :
    h_to_diameter_km H p = 1329 / Real.sqrt p * (10 : ℝ) ^ (-H / 5)
    ∧ (H < H2 → h_to_diameter_km H2 p < h_to_diameter_km H p)
    ∧ (p < p2 → h_to_diameter_km H p2 < h_to_diameter_km H p) := by
  refine ⟨rfl, ?_, ?_⟩
  · intro hH
    unfold h_to_diameter_km
    have hc : 0 < 1329 / Real.sqrt p := by
      exact div_pos (by norm_num) (Real.sqrt_pos.mpr hp)
    have hpow : (10 : ℝ) ^ (-H2 / 5) < (10 : ℝ) ^ (-H / 5) := by
      apply (Real.rpow_lt_rpow_left_iff (by norm_num)).mpr
      linarith
    exact mul_lt_mul_of_pos_left hpow hc
  · intro hpp
    unfold h_to_diameter_km
    have h1 : Real.sqrt p < Real.sqrt p2 := Real.sqrt_lt_sqrt hp.le hpp
    have h2 : 1329 / Real.sqrt p2 < 1329 / Real.sqrt p :=
      div_lt_div_of_pos_left (by norm_num) (Real.sqrt_pos.mpr hp) h1
    exact mul_lt_mul_of_pos_right h2 (Real.rpow_pos_of_pos (by norm_num) _)

/-- Witness for `h_to_diameter_km_spec`: at the nominal albedo band of the
pipeline, a dimmer object (larger H) and a brighter surface (larger p) both
give a strictly smaller diameter. -/
theorem h_to_diameter_km_spec_witness :
    (0 : ℝ) < 14/100
    ∧ h_to_diameter_km 22 (14/100) < h_to_diameter_km 20 (14/100)
    ∧ h_to_diameter_km 20 (25/100) < h_to_diameter_km 20 (14/100) :=
  ⟨by norm_num,
   (h_to_diameter_km_spec 20 22 (14/100) (25/100) (by norm_num)).2.1 (by norm_num),
   (h_to_diameter_km_spec 20 20 (14/100) (25/100) (by norm_num)).2.2 (by norm_num)⟩

/-! ## Claims C6 and C7: the String Normalizer -/

theorem dropWhile_head?_false {p : Char → Bool} :
    ∀ (l : List Char) {c : Char}, (l.dropWhile p).head? = some c → p c = false := by
  intro l
  induction l with
  | nil => intro c h; simp at h
  | cons x xs ih =>
    intro c h
    by_cases hx : p x = true
    · rw [List.dropWhile_cons, if_pos hx] at h
      exact ih h
    · rw [List.dropWhile_cons, if_neg hx] at h
      cases h
      exact Bool.eq_false_iff.mpr hx

theorem pyTrim_getLast?_false {l : List Char} {c : Char}
    (h : (pyTrim l).getLast? = some c) : pySpace c = false := by
  unfold pyTrim at h
  rw [List.getLast?_reverse] at h
  exact dropWhile_head?_false _ h

theorem pyTrim_eq_self_of_bounds {l : List Char}
    (h1 : ∀ c, l.head? = some c → pySpace c = false)
    (h2 : ∀ c, l.getLast? = some c → pySpace c = false) :
    pyTrim l = l := by
  unfold pyTrim
  have e1 : l.dropWhile pySpace = l := by
    cases l with
    | nil => rfl
    | cons c cs => rw [List.dropWhile_cons, if_neg (by simp [h1 c rfl])]
  rw [e1]
  have e2 : l.reverse.dropWhile pySpace = l.reverse := by
    cases hr : l.reverse with
    | nil => rfl
    | cons c cs =>
      have hc : l.getLast? = some c := by
        rw [← List.head?_reverse, hr]; rfl
      rw [List.dropWhile_cons, if_neg (by simp [h2 c hc])]
  rw [e2, List.reverse_reverse]

theorem pyStripParens_eq_self {l : List Char}
    (hw : ¬(l.head? = some '(' ∧ l.getLast? = some ')'))
    (hn : ∀ c, l.getLast? = some c → pySpace c = false) :
    pyStripParens l = l := by
  unfold pyStripParens
  rw [if_neg fun hcond => hw ⟨hcond.1, hcond.2.1⟩,
    if_neg fun hcond => absurd (hn '\n' hcond.1) (by decide)]

theorem pyCollapseGo_idem :
    ∀ (l : List Char) (b : Bool), pyCollapseGo b (pyCollapseGo b l) = pyCollapseGo b l := by
  intro l
  induction l with
  | nil => intro b; rfl
  | cons c cs ih =>
    intro b
    by_cases hc : pySpace c = true
    · cases b
      · simp only [pyCollapseGo, hc, if_true, Bool.false_eq_true, if_false]
        simp only [pyCollapseGo, show pySpace ' ' = true from rfl, if_true, ih true]
      · simp only [pyCollapseGo, hc, if_true, ih true]
    · simp only [pyCollapseGo, hc, Bool.false_eq_true, if_false,
        Bool.not_eq_true _ ▸ hc]
      simp only [pyCollapseGo, Bool.not_eq_true _ ▸ hc, if_false, ih false]

/-- Claim C6 counterexample: the normalizer is not idempotent — a doubly
parenthesized designation loses one layer per application. -/
theorem clean_sstr_not_idempotent :
    _clean_sstr (_clean_sstr "((2024 AB))") ≠ _clean_sstr "((2024 AB))" := by decide

/-- Claim C6 as amended: the normalizer is idempotent on every string whose
normalized form is not itself parenthesis-wrapped and not bounded by a
whitespace character (a second application can strip a further layer of
parentheses, or trim spaces newly exposed at the boundary). -/
theorem clean_sstr_idem_spec (s : String)
    (h1 : ((_clean_sstr s).toList.head?.all fun c => !pySpace c) = true)
    (h2 : ((_clean_sstr s).toList.getLast?.all fun c => !pySpace c) = true)
    (h3 : ¬((_clean_sstr s).toList.head? = some '(' ∧
        (_clean_sstr s).toList.getLast? = some ')')) :
    _clean_sstr (_clean_sstr s) = _clean_sstr s := by
  have h1' : ∀ c, (_clean_sstr s).toList.head? = some c → pySpace c = false := by
    intro c hc; rw [hc] at h1; simpa using h1
  have h2' : ∀ c, (_clean_sstr s).toList.getLast? = some c → pySpace c = false := by
    intro c hc; rw [hc] at h2; simpa using h2
  have e0 : (_clean_sstr s).toList = pyCollapse (pyStripParens (pyTrim s.toList)) := rfl
  have e3 : pyCollapse (_clean_sstr s).toList = (_clean_sstr s).toList := by
    rw [e0]
    exact pyCollapseGo_idem _ false
  have : _clean_sstr (_clean_sstr s)
      = (pyCollapse (pyStripParens (pyTrim (_clean_sstr s).toList))).asString := rfl
  rw [this, pyTrim_eq_self_of_bounds h1' h2', pyStripParens_eq_self h3 h2', e3]
  rfl

/-- Witness for `clean_sstr_idem_spec` at a concrete messy designation. -/
theorem clean_sstr_idem_spec_witness :
    _clean_sstr (_clean_sstr "  (2024  AB)  ") = _clean_sstr "  (2024  AB)  " :=
  clean_sstr_idem_spec _ (by decide) (by decide) (by decide)

/-- Claim C7 counterexample: the code checks only the boundary characters, so
a trimmed string that starts with `(` and ends with `)` without those forming
a matching pair still loses both. -/
theorem clean_sstr_unmatched_parens_counterexample :
    _clean_sstr "(2024) (AB)" = "2024) (AB"
    ∧ _clean_sstr "(2024) (AB)" ≠ "(2024) (AB)" := ⟨by decide, by decide⟩

/-- Claim C7 as amended: the normalizer strips the first and the last
character exactly when the trimmed string starts with `(`, ends with `)` and
its interior contains no newline (no matching-pair check; the dot of the
anchored pattern cannot cross a newline); in the two remaining cases — not
parenthesis-bounded, or parenthesis-bounded with a newline in the interior —
the trimmed string reaches the space-collapse step unchanged. -/
theorem clean_sstr_paren_spec (s : String) :
    ((pyTrim s.toList).head? = some '(' ∧ (pyTrim s.toList).getLast? = some ')' ∧
        '\n' ∉ innerChars (pyTrim s.toList) →
      _clean_sstr s = (pyCollapse (innerChars (pyTrim s.toList))).asString)
    ∧ (¬((pyTrim s.toList).head? = some '(' ∧ (pyTrim s.toList).getLast? = some ')') →
      _clean_sstr s = (pyCollapse (pyTrim s.toList)).asString)
    ∧ ((pyTrim s.toList).head? = some '(' ∧ (pyTrim s.toList).getLast? = some ')' ∧
        '\n' ∈ innerChars (pyTrim s.toList) →
      _clean_sstr s = (pyCollapse (pyTrim s.toList)).asString) := by
  refine ⟨?_, ?_, ?_⟩
  · intro hcond
    have : _clean_sstr s = (pyCollapse (pyStripParens (pyTrim s.toList))).asString := rfl
    rw [this]
    unfold pyStripParens
    rw [if_pos hcond]
  · intro hneg
    have : _clean_sstr s = (pyCollapse (pyStripParens (pyTrim s.toList))).asString := rfl
    rw [this, pyStripParens_eq_self hneg fun c hc => pyTrim_getLast?_false hc]
  · intro hcond
    have hrfl : _clean_sstr s = (pyCollapse (pyStripParens (pyTrim s.toList))).asString := rfl
    have hstrip : pyStripParens (pyTrim s.toList) = pyTrim s.toList := by
      unfold pyStripParens
      rw [if_neg fun hc => hc.2.2 hcond.2.2,
        if_neg fun hc => by rw [hcond.2.1] at hc; simp at hc]
    rw [hrfl, hstrip]

/-- Witness for `clean_sstr_paren_spec`: a fully wrapped designation is
unwrapped, a partially wrapped one is untouched, and a wrapped one with an
interior newline keeps its parentheses through the collapse step. -/
theorem clean_sstr_paren_spec_witness :
    _clean_sstr "(2024 AB)" = "2024 AB" ∧ _clean_sstr "(2024) AB" = "(2024) AB"
    ∧ _clean_sstr "(2024\nAB)" = "(2024 AB)" :=
  ⟨((clean_sstr_paren_spec "(2024 AB)").1 (by decide)).trans (by decide),
   ((clean_sstr_paren_spec "(2024) AB").2.1 (by decide)).trans (by decide),
   ((clean_sstr_paren_spec "(2024\nAB)").2.2 (by decide)).trans (by decide)⟩

/-! ## Claim C1: the MOID Extractor -/

/-- Claim C1 counterexample: on `{"elements": {"Earth MOID": 0}}` the claim's
presence-based resolution produces the candidate `0` and hence `0.0`, but the
code's `elements.get("Earth MOID") or elements.get("moid_au")` skips the
falsy `0` and the extractor returns absent. -/
theorem extract_moid_claim_counterexample :
    extract_moid_claim
        (PyVal.dict [("elements", PyVal.dict [("Earth MOID", PyVal.num 0)])])
      = some 0
    ∧ _extract_moid_from_orbit
        (PyVal.dict [("elements", PyVal.dict [("Earth MOID", PyVal.num 0)])])
      = none := ⟨by decide, by decide⟩

theorem normalizeMoid_eq_amended (v : PyVal) : normalizeMoid v = normalizeAmended v := by
  cases v <;> rfl

theorem findMoidInList_eq_amended (items : List PyVal) :
    findMoidInList items = amendedFromList items := by
  induction items with
  | nil => rfl
  | cons x rest ih =>
    cases x <;> simp only [findMoidInList, amendedFromList, ih, pyOr]

theorem PyVal.isNone_iff {v : PyVal} : v.isNone = true ↔ v = PyVal.none := by
  cases v <;> simp [PyVal.isNone]

theorem hasKey_false_dget {kvs : List (String × PyVal)} {k : String}
    (h : hasKey kvs k = false) : dget kvs k = PyVal.none := by
  unfold hasKey at h
  unfold dget
  cases hl : kvs.lookup k with
  | none => rfl
  | some v => rw [hl] at h; simp at h

theorem code_elems_eq_amended (v : PyVal) :
    (match v with
      | PyVal.dict ekvs =>
        if (dget ekvs "moid").isNone then pyOr (dget ekvs "Earth MOID") (dget ekvs "moid_au")
        else dget ekvs "moid"
      | PyVal.list items => findMoidInList items
      | _ => PyVal.none) = amendedElems v := by
  cases v with
  | dict ekvs =>
    have hred : amendedElems (PyVal.dict ekvs)
        = (match ekvs.lookup "moid" with
            | some w => if w.isNone then amendedSecondary ekvs else w
            | none => amendedSecondary ekvs) := rfl
    rw [hred]
    cases hm : ekvs.lookup "moid" with
    | none =>
      have hd : dget ekvs "moid" = PyVal.none := by unfold dget; rw [hm]; rfl
      show (if (dget ekvs "moid").isNone = true then
          pyOr (dget ekvs "Earth MOID") (dget ekvs "moid_au")
        else dget ekvs "moid") = amendedSecondary ekvs
      rw [hd]
      rfl
    | some w =>
      have hd : dget ekvs "moid" = w := by unfold dget; rw [hm]; rfl
      show (if (dget ekvs "moid").isNone = true then
          pyOr (dget ekvs "Earth MOID") (dget ekvs "moid_au")
        else dget ekvs "moid") = (if w.isNone = true then amendedSecondary ekvs else w)
      rw [hd]
      rfl
  | list items => exact findMoidInList_eq_amended items
  | none => rfl
  | bool b => rfl
  | num q => rfl
  | str s => rfl

/-- Claim C1 as amended: the extractor behaves as the claim describes except
that the fallback chains follow Python truthiness — `Earth MOID` is used only
when truthy, else `moid_au` (dict case), and `value` only when truthy, else
`val` (list case); a null chain result falls through to the top-level `moid`;
and boolean candidates normalize as numbers (`True` to 1.0, `False` to 0.0)
because Python `bool` is an `int` subclass. -/
theorem extract_moid_amended_spec (orbit : PyVal) :
    _extract_moid_from_orbit orbit = extract_moid_amended orbit := by
  cases orbit with
  | dict kvs =>
    show normalizeMoid _ = normalizeAmended _
    rw [normalizeMoid_eq_amended]
    congr 1
    unfold moidCandidate
    rw [code_elems_eq_amended]
    by_cases hn : (amendedElems (dget kvs "elements")).isNone = true
    · rw [hn]
      by_cases hk : hasKey kvs "moid" = true
      · simp only [hk, Bool.and_self, if_true, PyVal.isNone_iff.mp hn, if_true]
      · have hk' : hasKey kvs "moid" = false := Bool.eq_false_iff.mpr hk
        simp only [hk', Bool.and_false, Bool.false_eq_true, if_false, if_true,
          PyVal.isNone_iff.mp hn, hasKey_false_dget hk']
    · have hn' : (amendedElems (dget kvs "elements")).isNone = false :=
        Bool.eq_false_iff.mpr hn
      simp only [hn', Bool.false_and, Bool.false_eq_true, if_false]
  | none => rfl
  | bool b => rfl
  | num q => rfl
  | str s => rfl
  | list xs => rfl

/-! ## Claim C8: raising behavior of the extractor

Supporting lemmas: every token produced by the numeric regex is a valid
`float()` literal, so the unprotected `float(m.group(0))` in the `except`
branch cannot itself raise.  The one remaining raise is the `OverflowError`
of `float(moid)` on an integer candidate past the double range. -/

theorem dropWhile_append_all {p : Char → Bool} {l₁ : List Char} (l₂ : List Char)
    (h : ∀ c ∈ l₁, p c = true) : (l₁ ++ l₂).dropWhile p = l₂.dropWhile p := by
  induction l₁ with
  | nil => rfl
  | cons x xs ih =>
    rw [List.cons_append, List.dropWhile_cons, if_pos (h x (List.mem_cons_self x xs))]
    exact ih fun c hc => h c (List.mem_cons_of_mem _ hc)

theorem takeWhile_append_all {p : Char → Bool} {l₁ : List Char} (l₂ : List Char)
    (h : ∀ c ∈ l₁, p c = true) : (l₁ ++ l₂).takeWhile p = l₁ ++ l₂.takeWhile p := by
  induction l₁ with
  | nil => rfl
  | cons x xs ih =>
    rw [List.cons_append, List.takeWhile_cons, if_pos (h x (List.mem_cons_self x xs)),
      ih fun c hc => h c (List.mem_cons_of_mem _ hc), List.cons_append]

theorem takeWhile_cons_false {p : Char → Bool} {c : Char} {cs : List Char}
    (h : p c = false) : (c :: cs).takeWhile p = [] := by
  rw [List.takeWhile_cons, if_neg (by simp [h])]

theorem dropWhile_cons_false {p : Char → Bool} {c : Char} {cs : List Char}
    (h : p c = false) : (c :: cs).dropWhile p = c :: cs := by
  rw [List.dropWhile_cons, if_neg (by simp [h])]

theorem takeWhile_eq_self_of_all {p : Char → Bool} {l : List Char}
    (h : ∀ c ∈ l, p c = true) : l.takeWhile p = l := by
  induction l with
  | nil => rfl
  | cons x xs ih =>
    rw [List.takeWhile_cons, if_pos (h x (List.mem_cons_self x xs)),
      ih fun c hc => h c (List.mem_cons_of_mem _ hc)]

theorem dropWhile_eq_nil_of_all {p : Char → Bool} {l : List Char}
    (h : ∀ c ∈ l, p c = true) : l.dropWhile p = [] := by
  induction l with
  | nil => rfl
  | cons x xs ih =>
    rw [List.dropWhile_cons, if_pos (h x (List.mem_cons_self x xs))]
    exact ih fun c hc => h c (List.mem_cons_of_mem _ hc)

theorem dropWhile_eq_self_of_all_false {p : Char → Bool} {l : List Char}
    (h : ∀ c ∈ l, p c = false) : l.dropWhile p = l := by
  cases l with
  | nil => rfl
  | cons x xs => exact dropWhile_cons_false (h x (List.mem_cons_self x xs))

theorem pyTrim_eq_self_of_all {l : List Char}
    (h : ∀ c ∈ l, pySpace c = false) : pyTrim l = l := by
  unfold pyTrim
  rw [dropWhile_eq_self_of_all_false h,
    dropWhile_eq_self_of_all_false fun c hc => h c (List.mem_reverse.mp hc),
    List.reverse_reverse]

theorem isDig_not_space {c : Char} (h : isDig c = true) : pySpace c = false := by
  by_contra hns
  simp only [Bool.not_eq_false] at hns
  simp only [pySpace, Bool.or_eq_true, beq_iff_eq] at hns
  rcases hns with ((((rfl | rfl) | rfl) | rfl) | rfl) | rfl <;> exact absurd h (by decide)

theorem isDig_not_sign {c : Char} (h : isDig c = true) : (c == '+' || c == '-') = false := by
  by_contra hns
  simp only [Bool.not_eq_false, Bool.or_eq_true, beq_iff_eq] at hns
  rcases hns with rfl | rfl <;> exact absurd h (by decide)

theorem sign_not_space {c : Char} (h : (c == '+' || c == '-') = true) :
    pySpace c = false := by
  simp only [Bool.or_eq_true, beq_iff_eq] at h
  rcases h with rfl | rfl <;> decide

theorem expChar_not_space {c : Char} (h : (c == 'e' || c == 'E') = true) :
    pySpace c = false := by
  simp only [Bool.or_eq_true, beq_iff_eq] at h
  rcases h with rfl | rfl <;> decide

theorem expChar_not_digit {c : Char} (h : (c == 'e' || c == 'E') = true) :
    isDig c = false := by
  simp only [Bool.or_eq_true, beq_iff_eq] at h
  rcases h with rfl | rfl <;> decide

theorem expChar_not_dot {c : Char} (h : (c == 'e' || c == 'E') = true) : c ≠ '.' := by
  simp only [Bool.or_eq_true, beq_iff_eq] at h
  rcases h with rfl | rfl <;> decide

theorem matchSign_not_sign {l : List Char}
    (h : ∀ c cs, l = c :: cs → (c == '+' || c == '-') = false) :
    matchSign l = ([], l) := by
  cases l with
  | nil => rfl
  | cons c cs =>
    show (if (c == '+' || c == '-') = true then ([c], cs) else ([], c :: cs)) = ([], c :: cs)
    rw [if_neg (by simp [h c cs rfl])]

theorem isEmpty_false_of_ne_nil {l : List Char} (h : l ≠ []) : l.isEmpty = false := by
  cases l with
  | nil => exact absurd rfl h
  | cons x xs => rfl

theorem floatCore_digits {m₀ expp : List Char}
    (hd : ∀ c ∈ m₀, isDig c = true) (hne : m₀ ≠ [])
    (hexp : expp = [] ∨ ∃ c cs, expp = c :: cs ∧ isDig c = false ∧ c ≠ '.') :
    floatCore (m₀ ++ expp) = some ((m₀, []), expp) := by
  have hdw : (m₀ ++ expp).dropWhile isDig = expp := by
    rw [dropWhile_append_all expp hd]
    rcases hexp with rfl | ⟨c, cs, rfl, hc, _⟩
    · rfl
    · exact dropWhile_cons_false hc
  have htw : (m₀ ++ expp).takeWhile isDig = m₀ := by
    rw [takeWhile_append_all expp hd]
    rcases hexp with rfl | ⟨c, cs, rfl, hc, _⟩
    · simp
    · rw [takeWhile_cons_false hc, List.append_nil]
  have hhd : ¬(expp.head? = some '.') := by
    rcases hexp with rfl | ⟨c, cs, rfl, _, hdot⟩
    · simp
    · simpa using hdot
  unfold floatCore
  rw [hdw, htw, if_neg hhd, if_neg (by simp [isEmpty_false_of_ne_nil hne])]

theorem floatCore_frac {a b expp : List Char}
    (ha : ∀ c ∈ a, isDig c = true) (hb : ∀ c ∈ b, isDig c = true) (hbne : b ≠ [])
    (hexp : expp = [] ∨ ∃ c cs, expp = c :: cs ∧ isDig c = false ∧ c ≠ '.') :
    floatCore (a ++ '.' :: (b ++ expp)) = some ((a, b), expp) := by
  have hdw : (a ++ '.' :: (b ++ expp)).dropWhile isDig = '.' :: (b ++ expp) := by
    rw [dropWhile_append_all _ ha]
    exact dropWhile_cons_false (by decide)
  have htw : (a ++ '.' :: (b ++ expp)).takeWhile isDig = a := by
    rw [takeWhile_append_all _ ha, takeWhile_cons_false (by decide), List.append_nil]
  have htb : (b ++ expp).takeWhile isDig = b := by
    rw [takeWhile_append_all _ hb]
    rcases hexp with rfl | ⟨c, cs, rfl, hc, _⟩
    · simp
    · rw [takeWhile_cons_false hc, List.append_nil]
  have hdb : (b ++ expp).dropWhile isDig = expp := by
    rw [dropWhile_append_all _ hb]
    rcases hexp with rfl | ⟨c, cs, rfl, hc, _⟩
    · rfl
    · exact dropWhile_cons_false hc
  unfold floatCore
  rw [hdw, htw]
  simp only [List.head?_cons, List.tail_cons, htb, hdb, isEmpty_false_of_ne_nil hbne,
    Bool.and_false, Option.some.injEq, if_true, if_pos rfl]
  simp

theorem matchSign_cons_sign {c : Char} {cs : List Char}
    (h : (c == '+' || c == '-') = true) : matchSign (c :: cs) = ([c], cs) := by
  show (if (c == '+' || c == '-') = true then ([c], cs) else ([], c :: cs)) = ([c], cs)
  rw [if_pos h]

theorem pyFloatL_exp_calc {es ds : List Char}
    (hes : es = [] ∨ ∃ d, (d == '+' || d == '-') = true ∧ es = [d])
    (hds : ∀ x ∈ ds, isDig x = true) :
    matchSign (es ++ ds) = (es, ds) := by
  rcases hes with rfl | ⟨d, hd, rfl⟩
  · simp only [List.nil_append]
    apply matchSign_not_sign
    intro c cs hcc
    subst hcc
    exact isDig_not_sign (hds c (List.mem_cons_self c cs))
  · exact matchSign_cons_sign hd

theorem pyFloatTail_isSome {sgn a b expp : List Char}
    (hexp : expp = [] ∨ ∃ c es ds, (c == 'e' || c == 'E') = true
        ∧ (es = [] ∨ ∃ d, (d == '+' || d == '-') = true ∧ es = [d])
        ∧ ds ≠ [] ∧ (∀ x ∈ ds, isDig x = true) ∧ expp = c :: (es ++ ds)) :
    (pyFloatTail sgn a b expp).isSome = true := by
  rcases hexp with rfl | ⟨c, es, ds, hce, hes, hdsne, hds, rfl⟩
  · rfl
  · have hms : matchSign (es ++ ds) = (es, ds) := pyFloatL_exp_calc hes hds
    show ((if (c == 'e' || c == 'E') = true then
        if ((matchSign (es ++ ds)).2.takeWhile isDig).isEmpty
            || !((matchSign (es ++ ds)).2.dropWhile isDig).isEmpty then none
        else some (decValue sgn a b (matchSign (es ++ ds)).1
          ((matchSign (es ++ ds)).2.takeWhile isDig))
      else none)).isSome = true
    rw [if_pos hce, hms]
    rw [takeWhile_eq_self_of_all hds, dropWhile_eq_nil_of_all hds,
      isEmpty_false_of_ne_nil hdsne]
    simp

theorem pyFloatL_isSome_parts {sgn m₀ expp : List Char}
    (hs : sgn = [] ∨ ∃ c, (c == '+' || c == '-') = true ∧ sgn = [c])
    (hm : ((∀ c ∈ m₀, isDig c = true) ∧ m₀ ≠ [])
        ∨ ∃ a b, (∀ c ∈ a, isDig c = true) ∧ (∀ c ∈ b, isDig c = true) ∧ b ≠ []
            ∧ m₀ = a ++ '.' :: b)
    (hexp : expp = [] ∨ ∃ c es ds, (c == 'e' || c == 'E') = true
        ∧ (es = [] ∨ ∃ d, (d == '+' || d == '-') = true ∧ es = [d])
        ∧ ds ≠ [] ∧ (∀ x ∈ ds, isDig x = true) ∧ expp = c :: (es ++ ds)) :
    (pyFloatL (sgn ++ m₀ ++ expp)).isSome = true := by
  have hexp' : expp = [] ∨ ∃ c cs, expp = c :: cs ∧ isDig c = false ∧ c ≠ '.' := by
    rcases hexp with rfl | ⟨c, es, ds, hce, _, _, _, rfl⟩
    · exact Or.inl rfl
    · exact Or.inr ⟨c, es ++ ds, rfl, expChar_not_digit hce, expChar_not_dot hce⟩
  have hns : ∀ c ∈ sgn ++ m₀ ++ expp, pySpace c = false := by
    intro c hc
    rcases List.mem_append.mp hc with hc2 | hcexp
    · rcases List.mem_append.mp hc2 with hcs | hcm
      · rcases hs with rfl | ⟨d, hd, rfl⟩
        · simp at hcs
        · rw [List.mem_singleton.mp hcs]
          exact sign_not_space hd
      · rcases hm with ⟨hdig, _⟩ | ⟨a, b, hda, hdb, _, rfl⟩
        · exact isDig_not_space (hdig c hcm)
        · rcases List.mem_append.mp hcm with hca | hcb
          · exact isDig_not_space (hda c hca)
          · rcases List.mem_cons.mp hcb with rfl | hcb2
            · decide
            · exact isDig_not_space (hdb c hcb2)
    · rcases hexp with rfl | ⟨ce, es, ds, hce, hes, _, hds, rfl⟩
      · simp at hcexp
      · rcases List.mem_cons.mp hcexp with rfl | hc3
        · exact expChar_not_space hce
        · rcases List.mem_append.mp hc3 with hcs2 | hcd
          · rcases hes with rfl | ⟨d, hd, rfl⟩
            · simp at hcs2
            · rw [List.mem_singleton.mp hcs2]
              exact sign_not_space hd
          · exact isDig_not_space (hds c hcd)
  have hm0ne : m₀ ≠ [] := by
    rcases hm with ⟨_, hne⟩ | ⟨a, b, _, _, _, rfl⟩
    · exact hne
    · simp
  have hsgn2 : matchSign (sgn ++ (m₀ ++ expp)) = (sgn, m₀ ++ expp) := by
    rcases hs with rfl | ⟨d, hd, rfl⟩
    · rw [List.nil_append]
      apply matchSign_not_sign
      intro c cs hcc
      rcases hm with ⟨hdig, hne⟩ | ⟨a, b, hda, _, _, rfl⟩
      · cases m₀ with
        | nil => exact absurd rfl hne
        | cons x xs =>
          rw [List.cons_append] at hcc
          injection hcc with h1 _
          rw [← h1]
          exact isDig_not_sign (hdig x (List.mem_cons_self x xs))
      · cases a with
        | nil =>
          rw [List.nil_append, List.cons_append] at hcc
          injection hcc with h1 _
          rw [← h1]
          decide
        | cons x xs =>
          rw [List.cons_append, List.cons_append] at hcc
          injection hcc with h1 _
          rw [← h1]
          exact isDig_not_sign (hda x (List.mem_cons_self x xs))
    · rw [List.singleton_append]
      exact matchSign_cons_sign hd
  unfold pyFloatL
  rw [List.append_assoc, pyTrim_eq_self_of_all (by rw [← List.append_assoc]; exact hns),
    hsgn2]
  rcases hm with ⟨hdig, hne⟩ | ⟨a, b, hda, hdb, hbne, rfl⟩
  · rw [floatCore_digits hdig hne hexp']
    exact pyFloatTail_isSome hexp
  · rw [show (a ++ '.' :: b) ++ expp = a ++ '.' :: (b ++ expp) by simp,
      floatCore_frac hda hdb hbne hexp']
    exact pyFloatTail_isSome hexp

theorem matchExpPart_shape (l : List Char) :
    (matchExpPart l).1 = []
    ∨ ∃ c es ds, (c == 'e' || c == 'E') = true
        ∧ (es = [] ∨ ∃ d, (d == '+' || d == '-') = true ∧ es = [d])
        ∧ ds ≠ [] ∧ (∀ x ∈ ds, isDig x = true)
        ∧ (matchExpPart l).1 = c :: (es ++ ds) := by
  cases l with
  | nil => exact Or.inl rfl
  | cons c cs =>
    have hred : matchExpPart (c :: cs)
        = (if (c == 'e' || c == 'E') = true then
            if ((matchSign cs).2.takeWhile isDig).isEmpty then ([], c :: cs)
            else (c :: ((matchSign cs).1 ++ (matchSign cs).2.takeWhile isDig),
              (matchSign cs).2.dropWhile isDig)
          else ([], c :: cs)) := rfl
    by_cases he : (c == 'e' || c == 'E') = true
    · by_cases hds : ((matchSign cs).2.takeWhile isDig).isEmpty = true
      · rw [hred, if_pos he, if_pos hds]
        exact Or.inl rfl
      · rw [hred, if_pos he, if_neg hds]
        refine Or.inr ⟨c, (matchSign cs).1, (matchSign cs).2.takeWhile isDig, he, ?_, ?_,
          fun x hx => List.mem_takeWhile_imp hx, rfl⟩
        · cases cs with
          | nil => exact Or.inl rfl
          | cons d ds' =>
            by_cases hd : (d == '+' || d == '-') = true
            · exact Or.inr ⟨d, hd, by rw [matchSign_cons_sign hd]⟩
            · left
              show (if (d == '+' || d == '-') = true then ([d], ds') else ([], d :: ds')).1 = []
              rw [if_neg hd]
        · intro hnil
          exact hds (by rw [hnil]; rfl)
    · rw [hred, if_neg he]
      exact Or.inl rfl

theorem matchNumBody_shape {l m rest : List Char} (h : matchNumBody l = some (m, rest)) :
    ((∀ c ∈ m, isDig c = true) ∧ m ≠ [])
    ∨ ∃ a b, (∀ c ∈ a, isDig c = true) ∧ (∀ c ∈ b, isDig c = true) ∧ b ≠ []
        ∧ m = a ++ '.' :: b := by
  unfold matchNumBody at h
  by_cases h1 : (l.dropWhile isDig).head? = some '.'
  · rw [if_pos h1] at h
    by_cases h2 : ((l.dropWhile isDig).tail.takeWhile isDig).isEmpty = true
    · rw [if_pos h2] at h
      by_cases h3 : (l.takeWhile isDig).isEmpty = true
      · rw [if_pos h3] at h
        exact Option.noConfusion h
      · rw [if_neg h3] at h
        injection h with h6
        injection h6 with h7 h8
        subst h7
        refine Or.inl ⟨fun c hc => List.mem_takeWhile_imp hc, fun hnil => h3 ?_⟩
        rw [hnil]
        rfl
    · rw [if_neg h2] at h
      injection h with h6
      injection h6 with h7 h8
      subst h7
      refine Or.inr ⟨l.takeWhile isDig, (l.dropWhile isDig).tail.takeWhile isDig,
        fun c hc => List.mem_takeWhile_imp hc, fun c hc => List.mem_takeWhile_imp hc,
        fun hnil => h2 ?_, rfl⟩
      rw [hnil]
      rfl
  · rw [if_neg h1] at h
    by_cases h3 : (l.takeWhile isDig).isEmpty = true
    · rw [if_pos h3] at h
      exact Option.noConfusion h
    · rw [if_neg h3] at h
      injection h with h6
      injection h6 with h7 h8
      subst h7
      refine Or.inl ⟨fun c hc => List.mem_takeWhile_imp hc, fun hnil => h3 ?_⟩
      rw [hnil]
      rfl

theorem matchNumAt_parts {l m : List Char} (h : matchNumAt l = some m) :
    ∃ sgn m₀ expp,
      (sgn = [] ∨ ∃ c, (c == '+' || c == '-') = true ∧ sgn = [c])
      ∧ (((∀ c ∈ m₀, isDig c = true) ∧ m₀ ≠ [])
          ∨ ∃ a b, (∀ c ∈ a, isDig c = true) ∧ (∀ c ∈ b, isDig c = true) ∧ b ≠ []
              ∧ m₀ = a ++ '.' :: b)
      ∧ (expp = [] ∨ ∃ c es ds, (c == 'e' || c == 'E') = true
          ∧ (es = [] ∨ ∃ d, (d == '+' || d == '-') = true ∧ es = [d])
          ∧ ds ≠ [] ∧ (∀ x ∈ ds, isDig x = true) ∧ expp = c :: (es ++ ds))
      ∧ m = sgn ++ m₀ ++ expp := by
  unfold matchNumAt at h
  cases hb : matchNumBody (matchSign l).2 with
  | none =>
    rw [hb] at h
    exact Option.noConfusion h
  | some pr =>
    obtain ⟨m₀, rest⟩ := pr
    rw [hb] at h
    injection h with h7
    refine ⟨(matchSign l).1, m₀, (matchExpPart rest).1, ?_, matchNumBody_shape hb,
      matchExpPart_shape rest, h7.symm⟩
    cases l with
    | nil => exact Or.inl rfl
    | cons c cs =>
      by_cases hc : (c == '+' || c == '-') = true
      · exact Or.inr ⟨c, hc, by rw [matchSign_cons_sign hc]⟩
      · left
        show (if (c == '+' || c == '-') = true then ([c], cs) else ([], c :: cs)).1 = []
        rw [if_neg hc]

theorem searchNum_found {l m : List Char} (h : searchNum l = some m) :
    ∃ l', matchNumAt l' = some m := by
  induction l with
  | nil => exact Option.noConfusion h
  | cons c cs ih =>
    unfold searchNum at h
    cases hma : matchNumAt (c :: cs) with
    | some m' =>
      rw [hma] at h
      injection h with h2
      exact ⟨c :: cs, by rw [hma, h2]⟩
    | none =>
      rw [hma] at h
      exact ih h

theorem pyFloatL_isSome_of_searchNum {l m : List Char} (h : searchNum l = some m) :
    (pyFloatL m).isSome = true := by
  obtain ⟨l', hl'⟩ := searchNum_found h
  obtain ⟨sgn, m₀, expp, hs, hm, hexp, rfl⟩ := matchNumAt_parts hl'
  exact pyFloatL_isSome_parts hs hm hexp

theorem normalizeMoidE_cases (v : PyVal) :
    normalizeMoidE v = Except.ok (normalizeMoid v)
    ∨ (∃ q, v = PyVal.num q ∧ pyFloatOfNumRaises q = true
        ∧ normalizeMoidE v = Except.error ()) := by
  cases v with
  | num q =>
    by_cases hq : pyFloatOfNumRaises q = true
    · right
      refine ⟨q, rfl, hq, ?_⟩
      show (if pyFloatOfNumRaises q = true then Except.error ()
        else Except.ok (some q)) = Except.error ()
      rw [if_pos hq]
    · left
      show (if pyFloatOfNumRaises q = true then Except.error ()
        else Except.ok (some q)) = Except.ok (normalizeMoid (PyVal.num q))
      rw [if_neg hq]
      rfl
  | str s =>
    left
    unfold normalizeMoidE normalizeMoid
    cases hf : pyFloatL s.toList with
    | some q => simp only [hf]
    | none =>
      simp only [hf]
      cases hs : searchNum s.toList with
      | none => simp only [hs]
      | some m =>
        simp only [hs]
        cases hm : pyFloatL m with
        | some q => simp only [hm]
        | none =>
          have := pyFloatL_isSome_of_searchNum hs
          rw [hm] at this
          exact absurd this (by simp)
  | none => exact Or.inl rfl
  | bool b => exact Or.inl rfl
  | list xs => exact Or.inl rfl
  | dict kvs => exact Or.inl rfl

theorem extractE_cases (orbit : PyVal) :
    _extract_moid_from_orbitE orbit = Except.ok (_extract_moid_from_orbit orbit)
    ∨ (∃ kvs q, orbit = PyVal.dict kvs ∧ moidCandidate kvs = PyVal.num q
        ∧ pyFloatOfNumRaises q = true
        ∧ _extract_moid_from_orbitE orbit = Except.error ()) := by
  cases orbit with
  | dict kvs =>
    rcases normalizeMoidE_cases (moidCandidate kvs) with h | ⟨q, hq, hr, he⟩
    · exact Or.inl h
    · exact Or.inr ⟨kvs, q, rfl, hq, hr, he⟩
  | none => exact Or.inl rfl
  | bool b => exact Or.inl rfl
  | num q => exact Or.inl rfl
  | str s => exact Or.inl rfl
  | list xs => exact Or.inl rfl

/-- Claim C8 counterexample: the extractor is not raise-free — on the orbit
record with the JSON integer `10^400` as its top-level `moid`, `float(moid)`
raises an uncaught `OverflowError` (the integer exceeds the double range),
while the normal-return model would have produced a value. -/
theorem extract_moid_overflow_counterexample :
    _extract_moid_from_orbitE (PyVal.dict [("moid", PyVal.num (mkRat ((10 : ℕ) ^ 400 : ℕ) 1))])
      = Except.error ()
    ∧ ¬(_extract_moid_from_orbitE
          (PyVal.dict [("moid", PyVal.num (mkRat ((10 : ℕ) ^ 400 : ℕ) 1))])
        = Except.ok (_extract_moid_from_orbit
          (PyVal.dict [("moid", PyVal.num (mkRat ((10 : ℕ) ^ 400 : ℕ) 1))]))) :=
  ⟨rfl, fun h => Except.noConfusion h⟩

/-- Claim C8 as amended: the extractor terminates on every input, and the only
exception it can raise is the `OverflowError` of `float()` applied to an
integer candidate of magnitude at least `2^1024 - 2^970`; on every other
input — including all string candidates, where a failed direct parse is
caught and the numeric-regex fallback token always parses — it returns a
float or absent without raising. -/
theorem extract_moid_raises_spec (orbit : PyVal) :
    _extract_moid_from_orbitE orbit = Except.ok (_extract_moid_from_orbit orbit)
    ∨ (∃ kvs q, orbit = PyVal.dict kvs ∧ moidCandidate kvs = PyVal.num q
        ∧ pyFloatOfNumRaises q = true
        ∧ _extract_moid_from_orbitE orbit = Except.error ()) :=
  extractE_cases orbit

/-! ## Claim C2: the Orbital Lookup Client -/

/-- Claim C2 counterexample: `raise_for_status` raises only for 4xx/5xx, so an
anomalous 3xx final response (not a 2xx) with a decodable body is processed
normally and can yield a present MOID instead of the claimed absent result. -/
theorem sbdb_lookup_non2xx_counterexample :
    ¬(200 ≤ 300 ∧ 300 ≤ 299)
    ∧ sbdb_lookup_moid "2024 AB"
        (fun _ => HttpOutcome.response 300
          (some (PyVal.dict [("orbit",
            PyVal.dict [("elements", PyVal.dict [("moid", PyVal.str "0.0123")])])])))
        = some (mkRat 123 10000) := ⟨by decide, by decide⟩

/-- Claim C2 as amended: every `requests.RequestException` the request body
can raise is caught and collapsed to absent — network errors, timeouts, HTTP
statuses 400–599 (the exact range `raise_for_status` raises for; other
non-2xx statuses are not treated as errors) and undecodable JSON bodies — and
on a decoded body the result is exactly the MOID Extractor's, so an extractor
miss is also absent.  One exception CAN reach the caller: the extractor's
`OverflowError` on a huge integer MOID candidate, which
`except requests.RequestException` does not catch; the last conjunct states
that this is the only escape. -/
theorem sbdb_lookup_moid_spec (des : String) (net : String → HttpOutcome)
    (st : ℕ) (b : Option PyVal) (j : PyVal) :
    (∀ err, sbdb_try_body des net = Except.error err → sbdb_lookup_moid des net = none)
    ∧ (net (_clean_sstr des) = HttpOutcome.netError → sbdb_lookup_moid des net = none)
    ∧ (net (_clean_sstr des) = HttpOutcome.timeout → sbdb_lookup_moid des net = none)
    ∧ (net (_clean_sstr des) = HttpOutcome.response st b → 400 ≤ st → st < 600 →
        sbdb_lookup_moid des net = none)
    ∧ (net (_clean_sstr des) = HttpOutcome.response st none → sbdb_lookup_moid des net = none)
    ∧ (net (_clean_sstr des) = HttpOutcome.response st (some j) → ¬(400 ≤ st ∧ st < 600) →
        sbdb_lookup_moid des net =
          (match j with
            | PyVal.dict kvs =>
              _extract_moid_from_orbit ((kvs.lookup "orbit").getD (PyVal.dict []))
            | _ => none))
    ∧ (sbdb_lookup_moidE des net = Except.ok (sbdb_lookup_moid des net)
        ∨ (∃ st2 kvs, net (_clean_sstr des) = HttpOutcome.response st2 (some (PyVal.dict kvs))
            ∧ ¬(400 ≤ st2 ∧ st2 < 600)
            ∧ _extract_moid_from_orbitE ((kvs.lookup "orbit").getD (PyVal.dict []))
              = Except.error ()
            ∧ sbdb_lookup_moidE des net = Except.error ())) := by
  refine ⟨?_, ?_, ?_, ?_, ?_, ?_, ?_⟩
  · intro err herr
    unfold sbdb_lookup_moid
    rw [herr]
  · intro hnet
    have hbody : sbdb_try_body des net = Except.error RequestError.netError := by
      unfold sbdb_try_body
      rw [hnet]
    unfold sbdb_lookup_moid
    rw [hbody]
  · intro hnet
    have hbody : sbdb_try_body des net = Except.error RequestError.timeout := by
      unfold sbdb_try_body
      rw [hnet]
    unfold sbdb_lookup_moid
    rw [hbody]
  · intro hnet h4 h6
    have hbody : sbdb_try_body des net = Except.error RequestError.httpStatusError := by
      unfold sbdb_try_body
      rw [hnet]
      exact if_pos ⟨h4, h6⟩
    unfold sbdb_lookup_moid
    rw [hbody]
  · intro hnet
    by_cases hst : 400 ≤ st ∧ st < 600
    · have hbody : sbdb_try_body des net = Except.error RequestError.httpStatusError := by
        unfold sbdb_try_body
        rw [hnet]
        exact if_pos hst
      unfold sbdb_lookup_moid
      rw [hbody]
    · have hbody : sbdb_try_body des net = Except.error RequestError.jsonDecodeError := by
        unfold sbdb_try_body
        rw [hnet]
        exact if_neg hst
      unfold sbdb_lookup_moid
      rw [hbody]
  · intro hnet hst
    cases j with
    | dict kvs =>
      have hbody : sbdb_try_body des net
          = Except.ok (_extract_moid_from_orbit ((kvs.lookup "orbit").getD (PyVal.dict []))) := by
        unfold sbdb_try_body
        rw [hnet]
        exact if_neg hst
      unfold sbdb_lookup_moid
      rw [hbody]
    | none =>
      have hbody : sbdb_try_body des net = Except.ok none := by
        unfold sbdb_try_body
        rw [hnet]
        exact if_neg hst
      unfold sbdb_lookup_moid
      rw [hbody]
    | bool bb =>
      have hbody : sbdb_try_body des net = Except.ok none := by
        unfold sbdb_try_body
        rw [hnet]
        exact if_neg hst
      unfold sbdb_lookup_moid
      rw [hbody]
    | num q =>
      have hbody : sbdb_try_body des net = Except.ok none := by
        unfold sbdb_try_body
        rw [hnet]
        exact if_neg hst
      unfold sbdb_lookup_moid
      rw [hbody]
    | str s =>
      have hbody : sbdb_try_body des net = Except.ok none := by
        unfold sbdb_try_body
        rw [hnet]
        exact if_neg hst
      unfold sbdb_lookup_moid
      rw [hbody]
    | list xs =>
      have hbody : sbdb_try_body des net = Except.ok none := by
        unfold sbdb_try_body
        rw [hnet]
        exact if_neg hst
      unfold sbdb_lookup_moid
      rw [hbody]
  · cases hnet : net (_clean_sstr des) with
    | netError =>
      left
      have h1 : sbdb_lookup_moidE des net = Except.ok none := by
        unfold sbdb_lookup_moidE sbdb_try_bodyE
        rw [hnet]
      have hb : sbdb_try_body des net = Except.error RequestError.netError := by
        unfold sbdb_try_body
        rw [hnet]
      have h2 : sbdb_lookup_moid des net = none := by
        unfold sbdb_lookup_moid
        rw [hb]
      rw [h1, h2]
    | timeout =>
      left
      have h1 : sbdb_lookup_moidE des net = Except.ok none := by
        unfold sbdb_lookup_moidE sbdb_try_bodyE
        rw [hnet]
      have hb : sbdb_try_body des net = Except.error RequestError.timeout := by
        unfold sbdb_try_body
        rw [hnet]
      have h2 : sbdb_lookup_moid des net = none := by
        unfold sbdb_lookup_moid
        rw [hb]
      rw [h1, h2]
    | response st2 b2 =>
      by_cases h45 : 400 ≤ st2 ∧ st2 < 600
      · left
        have hbE : sbdb_try_bodyE des net
            = Except.ok (Except.error RequestError.httpStatusError) := by
          unfold sbdb_try_bodyE
          rw [hnet]
          exact if_pos h45
        have h1 : sbdb_lookup_moidE des net = Except.ok none := by
          unfold sbdb_lookup_moidE
          rw [hbE]
        have hb : sbdb_try_body des net = Except.error RequestError.httpStatusError := by
          unfold sbdb_try_body
          rw [hnet]
          exact if_pos h45
        have h2 : sbdb_lookup_moid des net = none := by
          unfold sbdb_lookup_moid
          rw [hb]
        rw [h1, h2]
      · cases b2 with
        | none =>
          left
          have hbE : sbdb_try_bodyE des net
              = Except.ok (Except.error RequestError.jsonDecodeError) := by
            unfold sbdb_try_bodyE
            rw [hnet]
            exact if_neg h45
          have h1 : sbdb_lookup_moidE des net = Except.ok none := by
            unfold sbdb_lookup_moidE
            rw [hbE]
          have hb : sbdb_try_body des net = Except.error RequestError.jsonDecodeError := by
            unfold sbdb_try_body
            rw [hnet]
            exact if_neg h45
          have h2 : sbdb_lookup_moid des net = none := by
            unfold sbdb_lookup_moid
            rw [hb]
          rw [h1, h2]
        | some j2 =>
          cases j2 with
          | dict kvs =>
            cases hE : _extract_moid_from_orbitE ((kvs.lookup "orbit").getD (PyVal.dict []))
              with
            | ok v =>
              left
              have hbE : sbdb_try_bodyE des net = Except.ok (Except.ok v) := by
                unfold sbdb_try_bodyE
                rw [hnet]
                refine Eq.trans (if_neg h45) ?_
                show (match _extract_moid_from_orbitE
                    ((kvs.lookup "orbit").getD (PyVal.dict [])) with
                  | Except.ok w => Except.ok (Except.ok w)
                  | Except.error e2 => Except.error e2) = Except.ok (Except.ok v)
                rw [hE]
              have h1 : sbdb_lookup_moidE des net = Except.ok v := by
                unfold sbdb_lookup_moidE
                rw [hbE]
              have hvx : v = _extract_moid_from_orbit
                  ((kvs.lookup "orbit").getD (PyVal.dict [])) := by
                rcases extractE_cases ((kvs.lookup "orbit").getD (PyVal.dict []))
                  with hcase | ⟨kvs2, q, _, _, _, herr⟩
                · rw [hE] at hcase
                  injection hcase
                · rw [hE] at herr
                  exact Except.noConfusion herr
              have hb : sbdb_try_body des net = Except.ok (_extract_moid_from_orbit
                  ((kvs.lookup "orbit").getD (PyVal.dict []))) := by
                unfold sbdb_try_body
                rw [hnet]
                exact if_neg h45
              have h2 : sbdb_lookup_moid des net = _extract_moid_from_orbit
                  ((kvs.lookup "orbit").getD (PyVal.dict [])) := by
                unfold sbdb_lookup_moid
                rw [hb]
              rw [h1, h2, hvx]
            | error e =>
              right
              have hbE : sbdb_try_bodyE des net = Except.error e := by
                unfold sbdb_try_bodyE
                rw [hnet]
                refine Eq.trans (if_neg h45) ?_
                show (match _extract_moid_from_orbitE
                    ((kvs.lookup "orbit").getD (PyVal.dict [])) with
                  | Except.ok w => Except.ok (Except.ok w)
                  | Except.error e2 => Except.error e2) = Except.error e
                rw [hE]
              have h1 : sbdb_lookup_moidE des net = Except.error e := by
                unfold sbdb_lookup_moidE
                rw [hbE]
              refine ⟨st2, kvs, rfl, h45, ?_, ?_⟩
              · exact hE
              · exact h1
          | none =>
            left
            have hbE : sbdb_try_bodyE des net = Except.ok (Except.ok none) := by
              unfold sbdb_try_bodyE
              rw [hnet]
              exact if_neg h45
            have h1 : sbdb_lookup_moidE des net = Except.ok none := by
              unfold sbdb_lookup_moidE
              rw [hbE]
            have hb : sbdb_try_body des net = Except.ok none := by
              unfold sbdb_try_body
              rw [hnet]
              exact if_neg h45
            have h2 : sbdb_lookup_moid des net = none := by
              unfold sbdb_lookup_moid
              rw [hb]
            rw [h1, h2]
          | bool bb =>
            left
            have hbE : sbdb_try_bodyE des net = Except.ok (Except.ok none) := by
              unfold sbdb_try_bodyE
              rw [hnet]
              exact if_neg h45
            have h1 : sbdb_lookup_moidE des net = Except.ok none := by
              unfold sbdb_lookup_moidE
              rw [hbE]
            have hb : sbdb_try_body des net = Except.ok none := by
              unfold sbdb_try_body
              rw [hnet]
              exact if_neg h45
            have h2 : sbdb_lookup_moid des net = none := by
              unfold sbdb_lookup_moid
              rw [hb]
            rw [h1, h2]
          | num q =>
            left
            have hbE : sbdb_try_bodyE des net = Except.ok (Except.ok none) := by
              unfold sbdb_try_bodyE
              rw [hnet]
              exact if_neg h45
            have h1 : sbdb_lookup_moidE des net = Except.ok none := by
              unfold sbdb_lookup_moidE
              rw [hbE]
            have hb : sbdb_try_body des net = Except.ok none := by
              unfold sbdb_try_body
              rw [hnet]
              exact if_neg h45
            have h2 : sbdb_lookup_moid des net = none := by
              unfold sbdb_lookup_moid
              rw [hb]
            rw [h1, h2]
          | str s2 =>
            left
            have hbE : sbdb_try_bodyE des net = Except.ok (Except.ok none) := by
              unfold sbdb_try_bodyE
              rw [hnet]
              exact if_neg h45
            have h1 : sbdb_lookup_moidE des net = Except.ok none := by
              unfold sbdb_lookup_moidE
              rw [hbE]
            have hb : sbdb_try_body des net = Except.ok none := by
              unfold sbdb_try_body
              rw [hnet]
              exact if_neg h45
            have h2 : sbdb_lookup_moid des net = none := by
              unfold sbdb_lookup_moid
              rw [hb]
            rw [h1, h2]
          | list xs =>
            left
            have hbE : sbdb_try_bodyE des net = Except.ok (Except.ok none) := by
              unfold sbdb_try_bodyE
              rw [hnet]
              exact if_neg h45
            have h1 : sbdb_lookup_moidE des net = Except.ok none := by
              unfold sbdb_lookup_moidE
              rw [hbE]
            have hb : sbdb_try_body des net = Except.ok none := by
              unfold sbdb_try_body
              rw [hnet]
              exact if_neg h45
            have h2 : sbdb_lookup_moid des net = none := by
              unfold sbdb_lookup_moid
              rw [hb]
            rw [h1, h2]

/-- Witness for `sbdb_lookup_moid_spec`: each failure mode collapses to
absent at concrete inputs, and a decoded body defers to the extractor. -/
theorem sbdb_lookup_moid_spec_witness :
    sbdb_lookup_moid "2024 AB" (fun _ => HttpOutcome.netError) = none
    ∧ sbdb_lookup_moid "2024 AB" (fun _ => HttpOutcome.timeout) = none
    ∧ sbdb_lookup_moid "2024 AB" (fun _ => HttpOutcome.response 503 none) = none
    ∧ sbdb_lookup_moid "2024 AB" (fun _ => HttpOutcome.response 200 none) = none
    ∧ sbdb_lookup_moid "2024 AB"
        (fun _ => HttpOutcome.response 200 (some (PyVal.dict []))) = none := by
  refine ⟨?_, ?_, ?_, ?_, ?_⟩
  · exact (sbdb_lookup_moid_spec "2024 AB" _ 0 none (PyVal.dict [])).2.1 rfl
  · exact (sbdb_lookup_moid_spec "2024 AB" _ 0 none (PyVal.dict [])).2.2.1 rfl
  · exact (sbdb_lookup_moid_spec "2024 AB" _ 503 none (PyVal.dict [])).2.2.2.1 rfl
      (by norm_num) (by norm_num)
  · exact (sbdb_lookup_moid_spec "2024 AB" _ 200 none (PyVal.dict [])).2.2.2.2.1 rfl
  · exact ((sbdb_lookup_moid_spec "2024 AB" _ 200 (some (PyVal.dict []))
      (PyVal.dict [])).2.2.2.2.2.1 rfl (by norm_num)).trans (by decide)

/-! ## Claim C4: enrichment is a non-dropping, non-duplicating join -/

/-- Claim C4: broadcasting the per-designation MOID map keeps the event count,
changes nothing but the MOID column, and gives two events with the same
designation the same MOID. -/
theorem enrich_join_spec (net : String → HttpOutcome) (evs : List Event) :
    (enrich net evs).length = evs.length
    ∧ (enrich net evs).map stripMoid = evs.map stripMoid
    ∧ ∀ e1 e2, e1 ∈ enrich net evs → e2 ∈ enrich net evs → e1.des = e2.des →
        e1.moid_au = e2.moid_au := by
  refine ⟨List.length_map _ _, ?_, ?_⟩
  · unfold enrich
    rw [List.map_map]
    congr 1
  · intro e1 e2 h1 h2 hdes
    rcases List.mem_map.mp h1 with ⟨a, _, rfl⟩
    rcases List.mem_map.mp h2 with ⟨b, _, rfl⟩
    exact congrArg (mapMoid (moidTable net evs)) hdes

/-- Witness for `enrich_join_spec` on two concrete events sharing the
designation `2024 AB`. -/
theorem enrich_join_spec_witness :
    (enrich (fun _ => HttpOutcome.netError)
        [{ cd := "t1", des := some "2024 AB", fullname := "", dist := some 1,
           v_rel := none, h := none, moid_au := none },
         { cd := "t2", des := some "2024 AB", fullname := "", dist := some 2,
           v_rel := none, h := none, moid_au := none }]).length = 2
    ∧ ({ cd := "t1", des := some "2024 AB", fullname := "", dist := some 1,
         v_rel := none, h := none, moid_au := none } : Event).moid_au
      = ({ cd := "t2", des := some "2024 AB", fullname := "", dist := some 2,
           v_rel := none, h := none, moid_au := none } : Event).moid_au := by
  constructor
  · exact (enrich_join_spec _ _).1
  · exact (enrich_join_spec (fun _ => HttpOutcome.netError)
      [{ cd := "t1", des := some "2024 AB", fullname := "", dist := some 1,
         v_rel := none, h := none, moid_au := none },
       { cd := "t2", des := some "2024 AB", fullname := "", dist := some 2,
         v_rel := none, h := none, moid_au := none }]).2.2 _ _
      (by decide) (by decide) rfl

/-! ## Claim C5: the sort step -/

theorem sortLe_total (a b : Event) : (sortLe a b || sortLe b a) = true := by
  unfold sortLe
  rcases le_total (sortKey a) (sortKey b) with h | h <;> simp [h]

theorem sortLe_trans (a b c : Event) (h1 : sortLe a b = true) (h2 : sortLe b c = true) :
    sortLe a c = true := by
  unfold sortLe at *
  simp only [decide_eq_true_eq] at *
  exact le_trans h1 h2

theorem keyAsc_le_iff (a b : Option ℚ) : keyAsc a ≤ keyAsc b ↔ optAscLe a b = true := by
  cases a <;> cases b <;>
    simp [keyAsc, optAscLe, Prod.Lex.le_iff, Bool.lt_iff]

theorem keyDesc_le_iff (a b : Option ℚ) : keyDesc a ≤ keyDesc b ↔ optDescLe a b = true := by
  cases a <;> cases b <;>
    simp [keyDesc, optDescLe, Prod.Lex.le_iff, Bool.lt_iff]

theorem keyAsc_inj {a b : Option ℚ} (h : keyAsc a = keyAsc b) : a = b := by
  cases a <;> cases b <;> simp_all [keyAsc]

theorem sortKey_le_iff (e f : Event) :
    sortKey e ≤ sortKey f ↔
      (keyAsc e.dist < keyAsc f.dist
        ∨ (keyAsc e.dist = keyAsc f.dist
          ∧ (keyAsc e.h < keyAsc f.h
            ∨ (keyAsc e.h = keyAsc f.h ∧ keyDesc e.v_rel ≤ keyDesc f.v_rel)))) := by
  unfold sortKey
  rw [Prod.Lex.le_iff]
  constructor
  · rintro (h | ⟨h1, h2⟩)
    · exact Or.inl h
    · rw [Prod.Lex.le_iff] at h2
      exact Or.inr ⟨h1, h2⟩
  · rintro (h | ⟨h1, h2⟩)
    · exact Or.inl h
    · exact Or.inr ⟨h1, (Prod.Lex.le_iff _ _).mpr h2⟩

theorem sortLe_imp_claim (e f : Event) (h : sortLe e f = true) :
    optAscLe e.dist f.dist = true
    ∧ (e.dist = f.dist → optAscLe e.h f.h = true)
    ∧ (e.dist = f.dist → e.h = f.h → optDescLe e.v_rel f.v_rel = true) := by
  unfold sortLe at h
  rw [decide_eq_true_eq, sortKey_le_iff] at h
  rcases h with hlt | ⟨heq, hrest⟩
  · refine ⟨(keyAsc_le_iff _ _).mp hlt.le, fun hde => ?_, fun hde _ => ?_⟩
    · rw [hde] at hlt
      exact absurd hlt (lt_irrefl _)
    · rw [hde] at hlt
      exact absurd hlt (lt_irrefl _)
  · refine ⟨(keyAsc_le_iff _ _).mp heq.le, fun _ => ?_, fun _ hh => ?_⟩
    · rcases hrest with hlt2 | ⟨heq2, _⟩
      · exact (keyAsc_le_iff _ _).mp hlt2.le
      · exact (keyAsc_le_iff _ _).mp heq2.le
    · rcases hrest with hlt2 | ⟨_, hv⟩
      · rw [hh] at hlt2
        exact absurd hlt2 (lt_irrefl _)
      · exact (keyDesc_le_iff _ _).mp hv

theorem sortKey_eq_of_keyTriple {e f : Event} (h : keyTriple e = keyTriple f) :
    sortKey e = sortKey f := by
  unfold keyTriple at h
  simp only [Prod.mk.injEq] at h
  obtain ⟨h1, h2, h3⟩ := h
  unfold sortKey
  rw [h1, h2, h3]

/-- Claim C5: the pipeline's sort is non-decreasing in distance, among equal
distances non-decreasing in H, among equal (distance, H) non-increasing in
relative velocity (missing values ordered last throughout, per pandas
`na_position="last"`), it is a permutation of its input, and it is stable:
for every value of the full key triple, the rows carrying that key appear in
their original fetch order. -/
theorem sort_events_spec (evs : List Event) :
    (sortEvents evs).Perm evs
    ∧ List.Pairwise (fun e f =>
        optAscLe e.dist f.dist = true
        ∧ (e.dist = f.dist → optAscLe e.h f.h = true)
        ∧ (e.dist = f.dist → e.h = f.h → optDescLe e.v_rel f.v_rel = true)) (sortEvents evs)
    ∧ ∀ k : Option ℚ × Option ℚ × Option ℚ,
        (sortEvents evs).filter (fun e => decide (keyTriple e = k))
          = evs.filter (fun e => decide (keyTriple e = k)) := by
  have htr : ∀ a b c : Event, sortLe a b = true → sortLe b c = true → sortLe a c = true :=
    sortLe_trans
  have htot : ∀ a b : Event, (sortLe a b || sortLe b a) = true := sortLe_total
  unfold sortEvents
  refine ⟨List.mergeSort_perm evs sortLe, ?_, ?_⟩
  · exact (List.sorted_mergeSort htr htot evs).imp fun h => sortLe_imp_claim _ _ h
  · intro k
    have hsub : (evs.filter fun e => decide (keyTriple e = k)).Sublist
        (evs.mergeSort sortLe) := by
      apply List.sublist_mergeSort htr htot
      · apply List.pairwise_of_forall_mem_list
        intro a ha b hb
        have hka : keyTriple a = k := by simpa using (List.mem_filter.mp ha).2
        have hkb : keyTriple b = k := by simpa using (List.mem_filter.mp hb).2
        unfold sortLe
        rw [sortKey_eq_of_keyTriple (hka.trans hkb.symm)]
        simp
      · exact List.filter_sublist evs
    have hsub2 : (evs.filter fun e => decide (keyTriple e = k)).Sublist
        ((evs.mergeSort sortLe).filter fun e => decide (keyTriple e = k)) := by
      have he : ((evs.filter fun e => decide (keyTriple e = k)).filter
            fun e => decide (keyTriple e = k))
          = evs.filter fun e => decide (keyTriple e = k) :=
        List.filter_eq_self.mpr fun a ha => (List.mem_filter.mp ha).2
      have hf := List.Sublist.filter (fun e => decide (keyTriple e = k)) hsub
      rwa [he] at hf
    have hlen : ((evs.mergeSort sortLe).filter fun e => decide (keyTriple e = k)).length
        = (evs.filter fun e => decide (keyTriple e = k)).length :=
      ((List.mergeSort_perm evs sortLe).filter _).length_eq
    exact (hsub2.eq_of_length hlen.symm).symm

/-- Witness for `sort_events_spec` at a concrete two-event list. -/
theorem sort_events_spec_witness :
    (sortEvents
        [{ cd := "t1", des := some "a", fullname := "", dist := some 2,
           v_rel := some 3, h := some 20, moid_au := none },
         { cd := "t2", des := some "b", fullname := "", dist := some 1,
           v_rel := some 4, h := some 21, moid_au := none }]).Perm
      [{ cd := "t1", des := some "a", fullname := "", dist := some 2,
         v_rel := some 3, h := some 20, moid_au := none },
       { cd := "t2", des := some "b", fullname := "", dist := some 1,
         v_rel := some 4, h := some 21, moid_au := none }]
    ∧ (sortEvents
        [{ cd := "t1", des := some "a", fullname := "", dist := some 2,
           v_rel := some 3, h := some 20, moid_au := none },
         { cd := "t2", des := some "b", fullname := "", dist := some 1,
           v_rel := some 4, h := some 21, moid_au := none }]).filter
        (fun e => decide (keyTriple e = (some 1, some 21, some 4)))
      = [{ cd := "t1", des := some "a", fullname := "", dist := some 2,
           v_rel := some 3, h := some 20, moid_au := none },
         { cd := "t2", des := some "b", fullname := "", dist := some 1,
           v_rel := some 4, h := some 21, moid_au := none }].filter
        (fun e => decide (keyTriple e = (some 1, some 21, some 4))) :=
  ⟨(sort_events_spec _).1, (sort_events_spec _).2.2 _⟩
